import Mathlib

/-!
Verification development for the lebrongpt backend
(`src/lebrongpt/backend/kaggle_data.py` and `src/lebrongpt/backend/main.py`).

The aggregation pipeline, the refreshable cache and the query layer are
shallowly embedded below.  Numeric dataframe cells are modelled by `PVal`:
a finite rational, one of the three IEEE non-finite values produced by
division (`nan`, `inf`, `ninf`), or a string cell.  Dataframes are modelled
by `Frame`: a list of column names plus one row per player, each row an
association list from column name to cell value, mirroring the pandas
frames the Python code builds.
-/

set_option maxHeartbeats 4000000
set_option maxRecDepth 4000

attribute [local semireducible] Rat.mul Rat.add Rat.inv Rat.sub

namespace LebronGPT

/-! ### String utilities (kernel-computable stand-ins for Python `str` ops) -/

/-- Lowercase a string character by character (Python `str.lower`). -/
def lowerStr (s : String) : String := ⟨s.data.map Char.toLower⟩

/-- Lowercased character list of a string. -/
def toLowerL (s : String) : List Char := s.data.map Char.toLower

/-- Does `pat` occur at the start of `hay`? -/
def isSubAt : List Char → List Char → Bool
  | [], _ => true
  | _ :: _, [] => false
  | a :: as, b :: bs => a = b && isSubAt as bs

/-- Does `pat` occur anywhere inside `hay`? -/
def hasSub (pat : List Char) : List Char → Bool
  | [] => pat.isEmpty
  | c :: rest => isSubAt pat (c :: rest) || hasSub pat rest

/-- Case-insensitive substring test: pandas
`Series.str.contains(pat, case=False)` for a literal pattern. -/
def containsCI (hay pat : String) : Bool := hasSub (toLowerL pat) (toLowerL hay)

/-- Lexicographic comparison of strings by code point (strict). -/
def charListLt : List Char → List Char → Bool
  | [], [] => false
  | [], _ :: _ => true
  | _ :: _, [] => false
  | a :: as, b :: bs =>
    if a.val < b.val then true else if b.val < a.val then false else charListLt as bs

/-- Non-strict lexicographic comparison of strings by code point,
matching Python's `<=` on `str`. -/
def strLe (a b : String) : Bool := a = b || charListLt a.data b.data

/-- Sorted list of the distinct elements of `l`
(Python `sorted(series.unique().tolist())`). -/
def dedupSort (l : List String) : List String :=
  List.insertionSort (fun a b => strLe a b = true) l.dedup

/-! ### Dates -/

/-- A calendar date, the result of `pd.to_datetime` on a game-date cell. -/
structure Date where
  year : Int
  month : Nat
  day : Nat
deriving DecidableEq

/-- Lexicographic date comparison (`a ≤ b`). -/
def dateLeB (a b : Date) : Bool :=
  if a.year < b.year then true
  else if b.year < a.year then false
  else if a.month < b.month then true
  else if b.month < a.month then false
  else a.day ≤ b.day

/-- The larger of two dates. -/
def dmax (a b : Date) : Date := if dateLeB a b then b else a

/-! ### Raw rows -/

/-- One row of `PlayerStatistics.csv` after parsing: per-player per-game
box score.  Numeric columns are modelled as exact rationals. -/
structure GameRow where
  firstName : String
  lastName : String
  gameDate : Date
  gameType : String
  points : ℚ
  assists : ℚ
  reboundsTotal : ℚ
  steals : ℚ
  blocks : ℚ
  turnovers : ℚ
  fieldGoalsMade : ℚ
  fieldGoalsAttempted : ℚ
  threePointersMade : ℚ
  threePointersAttempted : ℚ
  freeThrowsMade : ℚ
  freeThrowsAttempted : ℚ
deriving DecidableEq

/-- One row of `Players.csv`: roster/bio info.  The three role flags are
numeric cells compared against 1 by the code; height and body weight are
kept as dataframe cells (possibly missing, i.e. `nan`). -/
structure PlayerRow where
  firstName : String
  lastName : String
  guard : ℚ
  forward : ℚ
  center : ℚ
  height : ℚ
  bodyWeight : ℚ
deriving DecidableEq

/-- `stats_df['Player'] = stats_df['firstName'] + ' ' + stats_df['lastName']` -/
def mkPlayerName (r : GameRow) : String := r.firstName ++ " " ++ r.lastName

/-- `players_df['Player'] = players_df['firstName'] + ' ' + players_df['lastName']` -/
def mkPRName (pr : PlayerRow) : String := pr.firstName ++ " " ++ pr.lastName

/-! ### Dataframe cells -/

/-- A dataframe cell: a finite rational, an IEEE special produced by a
division, or a string. -/
inductive PVal where
  | num (q : ℚ)
  | nan
  | inf
  | ninf
  | str (s : String)
deriving DecidableEq

/-- Float division semantics on finite operands: division by zero yields
`nan` (0/0) or a signed infinity, exactly as a pandas column division does. -/
def qdiv (a b : ℚ) : PVal :=
  if b = 0 then (if a = 0 then PVal.nan else if 0 < a then PVal.inf else PVal.ninf)
  else PVal.num (a / b)

/-- Multiply a cell by 100 (`* 100` on a pandas series): non-finite values
are preserved (100 is positive). -/
def pmul100 : PVal → PVal
  | .num q => .num (q * 100)
  | v => v

/-- Round half to even, the rounding used by Python's `round` and pandas'
`.round`. -/
def rhe (x : ℚ) : ℤ :=
  let f := Rat.floor x
  let r := x - (f : ℚ)
  if r < 1/2 then f
  else if 1/2 < r then f + 1
  else if f % 2 = 0 then f else f + 1

/-- Round to one decimal place. -/
def rnd1 (q : ℚ) : ℚ := ((rhe (q * 10) : ℚ)) / 10

/-- `.round(1)` on a cell: keeps `nan` and infinities. -/
def pround1 : PVal → PVal
  | .num q => .num (rnd1 q)
  | v => v

/-- `fillna(0)` on a cell: only `nan` is replaced; infinities survive. -/
def fillVal : PVal → PVal
  | .nan => .num 0
  | v => v

/-- The per-value sanitation in `get_player_stats`: floats that are NaN or
±infinity become 0, other floats are rounded to one decimal place,
non-float values pass through. -/
def sanitizeVal : PVal → PVal
  | .num q => .num (rnd1 q)
  | .nan => .num 0
  | .inf => .num 0
  | .ninf => .num 0
  | .str s => .str s

/-- Association-list lookup of a cell by column name. -/
def alookup (k : String) : List (String × PVal) → Option PVal
  | [] => none
  | kv :: rest => if kv.1 = k then some kv.2 else alookup k rest

/-! ### Frames -/

instance {α β : Type} [DecidableEq α] [DecidableEq β] : DecidableEq (Except α β) :=
  fun a b =>
    match a, b with
    | .ok x, .ok y =>
      if h : x = y then .isTrue (by rw [h]) else .isFalse (by intro hh; cases hh; exact h rfl)
    | .error x, .error y =>
      if h : x = y then .isTrue (by rw [h]) else .isFalse (by intro hh; cases hh; exact h rfl)
    | .ok _, .error _ => .isFalse (by intro hh; cases hh)
    | .error _, .ok _ => .isFalse (by intro hh; cases hh)

/-- One dataframe row: the `Player` key plus the named cells. -/
structure FRow where
  player : String
  cells : List (String × PVal)
deriving DecidableEq

/-- A dataframe keyed by `Player`. -/
structure Frame where
  cols : List String
  rows : List FRow
deriving DecidableEq

/-- The `Player` column of a frame. -/
def Frame.names (f : Frame) : List String := f.rows.map (·.player)

/-- All the rows of `df` belonging to player `p` (one `groupby` group). -/
def rowsOf (df : List GameRow) (p : String) : List GameRow :=
  df.filter (fun r => mkPlayerName r = p)

/-- The sorted distinct group keys of `df.groupby('Player')`. -/
def groupKeys (df : List GameRow) : List String := dedupSort (df.map mkPlayerName)

/-- Sum of a numeric column over a list of rows. -/
def sumQ (rows : List GameRow) (f : GameRow → ℚ) : ℚ := (rows.map f).sum

/-- The cells produced by `calculate_stats` for one player group:
the twelve summed columns, the games-played count, the six per-game
averages and the three shooting percentages, all column names carrying
the given prefix. -/
def statCells (pre : String) (rows : List GameRow) : List (String × PVal) :=
  let n : ℚ := (rows.length : ℚ)
  let sPts := sumQ rows (·.points)
  let sAst := sumQ rows (·.assists)
  let sReb := sumQ rows (·.reboundsTotal)
  let sStl := sumQ rows (·.steals)
  let sBlk := sumQ rows (·.blocks)
  let sTov := sumQ rows (·.turnovers)
  let sFGM := sumQ rows (·.fieldGoalsMade)
  let sFGA := sumQ rows (·.fieldGoalsAttempted)
  let s3PM := sumQ rows (·.threePointersMade)
  let s3PA := sumQ rows (·.threePointersAttempted)
  let sFTM := sumQ rows (·.freeThrowsMade)
  let sFTA := sumQ rows (·.freeThrowsAttempted)
  [ (pre ++ "_points", .num sPts),
    (pre ++ "_assists", .num sAst),
    (pre ++ "_reboundsTotal", .num sReb),
    (pre ++ "_steals", .num sStl),
    (pre ++ "_blocks", .num sBlk),
    (pre ++ "_turnovers", .num sTov),
    (pre ++ "_fieldGoalsMade", .num sFGM),
    (pre ++ "_fieldGoalsAttempted", .num sFGA),
    (pre ++ "_threePointersMade", .num s3PM),
    (pre ++ "_threePointersAttempted", .num s3PA),
    (pre ++ "_freeThrowsMade", .num sFTM),
    (pre ++ "_freeThrowsAttempted", .num sFTA),
    (pre ++ "_Games", .num n),
    (pre ++ "_PPG", qdiv sPts n),
    (pre ++ "_APG", qdiv sAst n),
    (pre ++ "_RPG", qdiv sReb n),
    (pre ++ "_SPG", qdiv sStl n),
    (pre ++ "_BPG", qdiv sBlk n),
    (pre ++ "_TOPG", qdiv sTov n),
    (pre ++ "_FG%", pround1 (pmul100 (qdiv sFGM sFGA))),
    (pre ++ "_3P%", pround1 (pmul100 (qdiv s3PM s3PA))),
    (pre ++ "_FT%", pround1 (pmul100 (qdiv sFTM sFTA))) ]

/-- The column list `calculate_stats` produces for a prefix. -/
def statColsP (pre : String) : List String := (statCells pre []).map Prod.fst

/-- `calculate_stats(df, prefix)`: on an empty dataframe the Python code
returns a bare `pd.DataFrame()` that has no `Player` column at all, which
is modelled as `none`.  Otherwise: group by player (keys sorted), sums,
count, averages, percentages. -/
def calculateStats (df : List GameRow) (pre : String) : Option Frame :=
  match df with
  | [] => none
  | _ :: _ => some ⟨statColsP pre, (groupKeys df).map (fun p => ⟨p, statCells pre (rowsOf df p)⟩)⟩

/-- The all-`NaN` cells an unmatched side contributes in a merge. -/
def nanFillCells (cols : List String) : List (String × PVal) :=
  cols.map (fun c => (c, PVal.nan))

/-- Failure of the aggregation step (`pd.merge` raises `KeyError` when a
side has no `Player` column). -/
inductive AggErr where
  | keyError
deriving DecidableEq

/-- `pd.merge(a, b, on='Player', how='outer')`.  Keys of the result are the
sorted union; a key missing from one side gets that side's columns as
`NaN`; duplicate keys multiply as in pandas. -/
def mergeOuter : Option Frame → Option Frame → Except AggErr Frame
  | some a, some b => .ok ⟨a.cols ++ b.cols,
      (dedupSort (a.names ++ b.names)).flatMap (fun p =>
        match a.rows.filter (fun r => r.player = p), b.rows.filter (fun r => r.player = p) with
        | [], bs => bs.map (fun rb => ⟨p, nanFillCells a.cols ++ rb.cells⟩)
        | as, [] => as.map (fun ra => ⟨p, ra.cells ++ nanFillCells b.cols⟩)
        | as, bs => as.flatMap (fun ra => bs.map (fun rb => ⟨p, ra.cells ++ rb.cells⟩)))⟩
  | _, _ => .error .keyError

/-- `pd.merge(a, b, on='Player', how='left')`: left rows in order, each
expanded by its matching right rows (or `NaN`-filled if none match). -/
def mergeLeft (a b : Frame) : Frame :=
  ⟨a.cols ++ b.cols,
    a.rows.flatMap (fun ra =>
      match b.rows.filter (fun r => r.player = ra.player) with
      | [] => [⟨ra.player, ra.cells ++ nanFillCells b.cols⟩]
      | bs => bs.map (fun rb => ⟨ra.player, ra.cells ++ rb.cells⟩))⟩

/-- `fillna(0)` over a cell list. -/
def fillCellsL (cs : List (String × PVal)) : List (String × PVal) :=
  cs.map (fun kv => (kv.1, fillVal kv.2))

/-- `final_stats.fillna(0)`. -/
def fillna0 (f : Frame) : Frame :=
  ⟨f.cols, f.rows.map (fun r => ⟨r.player, fillCellsL r.cells⟩)⟩

/-- The current-season per-player cells: per-game means of the twelve
numeric columns plus the games count, prefixed `Current_`. -/
def meanCells (rows : List GameRow) : List (String × PVal) :=
  let n : ℚ := (rows.length : ℚ)
  [ ("Current_points", qdiv (sumQ rows (·.points)) n),
    ("Current_assists", qdiv (sumQ rows (·.assists)) n),
    ("Current_reboundsTotal", qdiv (sumQ rows (·.reboundsTotal)) n),
    ("Current_steals", qdiv (sumQ rows (·.steals)) n),
    ("Current_blocks", qdiv (sumQ rows (·.blocks)) n),
    ("Current_turnovers", qdiv (sumQ rows (·.turnovers)) n),
    ("Current_fieldGoalsMade", qdiv (sumQ rows (·.fieldGoalsMade)) n),
    ("Current_fieldGoalsAttempted", qdiv (sumQ rows (·.fieldGoalsAttempted)) n),
    ("Current_threePointersMade", qdiv (sumQ rows (·.threePointersMade)) n),
    ("Current_threePointersAttempted", qdiv (sumQ rows (·.threePointersAttempted)) n),
    ("Current_freeThrowsMade", qdiv (sumQ rows (·.freeThrowsMade)) n),
    ("Current_freeThrowsAttempted", qdiv (sumQ rows (·.freeThrowsAttempted)) n),
    ("Current_Games", .num n) ]

/-- Columns of the current-season frame. -/
def currentCols : List String := (meanCells []).map Prod.fst

/-- The `latest_stats` frame: `groupby('Player').agg('mean', count)` over
the current-season rows.  A `groupby().agg()` on an empty frame keeps its
columns, so this frame always has a `Player` key. -/
def currentFrame (cur : List GameRow) : Frame :=
  ⟨currentCols, (groupKeys cur).map (fun p => ⟨p, meanCells (rowsOf cur p)⟩)⟩

/-- `latest_date = stats_df['gameDate'].max()`.  Only evaluated on a
non-empty row list in the code path that reaches it; the `[]` branch is a
placeholder for pandas' `NaT`. -/
def maxDate (l : List GameRow) : Date :=
  match l with
  | [] => ⟨0, 1, 1⟩
  | r :: rest => rest.foldl (fun acc g => dmax acc g.gameDate) r.gameDate

/-- `latest_date.replace(month=10, day=1)`, moved one year back when the
max date's month precedes October. -/
def seasonStartD (d : Date) : Date :=
  if d.month < 10 then ⟨d.year - 1, 10, 1⟩ else ⟨d.year, 10, 1⟩

/-- Rows kept by the preseason filter
(`~gameType.str.contains('Preseason', case=False)`). -/
def nonPreRows (stats : List GameRow) : List GameRow :=
  stats.filter (fun r => !(containsCI r.gameType "Preseason"))

/-- The regular-season subset
(`gameType.str.contains('Regular Season|NBA Emirates Cup', case=False)`). -/
def regularRows (stats : List GameRow) : List GameRow :=
  (nonPreRows stats).filter
    (fun r => containsCI r.gameType "Regular Season" || containsCI r.gameType "NBA Emirates Cup")

/-- The playoff subset
(`gameType.str.contains('Playoffs|Play-in Tournament', case=False)`). -/
def playoffRows (stats : List GameRow) : List GameRow :=
  (nonPreRows stats).filter
    (fun r => containsCI r.gameType "Playoffs" || containsCI r.gameType "Play-in Tournament")

/-- The rows of the current season: game date on or after the computed
season start. -/
def currentRows (stats : List GameRow) : List GameRow :=
  (nonPreRows stats).filter
    (fun r => dateLeB (seasonStartD (maxDate (nonPreRows stats))) r.gameDate)

/-- Position derivation from the three role flags, in priority order. -/
def positionOf (pr : PlayerRow) : String :=
  if pr.guard = 1 then "G"
  else if pr.forward = 1 then "F"
  else if pr.center = 1 then "C"
  else "Unknown"

/-- Columns contributed by the player-info merge (before renaming). -/
def pbCols : List String := ["Position", "height", "bodyWeight"]

/-- `players_df[['Player', 'Position', 'height', 'bodyWeight']]` as a frame. -/
def playersFrame (players : List PlayerRow) : Frame :=
  ⟨pbCols, players.map (fun pr =>
    ⟨mkPRName pr,
      [("Position", PVal.str (positionOf pr)),
       ("height", PVal.num pr.height),
       ("bodyWeight", PVal.num pr.bodyWeight)]⟩)⟩

/-- The final `rename(columns={'height': 'Height', 'bodyWeight': 'Weight'})`. -/
def renameKey (k : String) : String :=
  if k = "height" then "Height" else if k = "bodyWeight" then "Weight" else k

/-- Renaming applied to a cell list. -/
def renameCells (cs : List (String × PVal)) : List (String × PVal) :=
  cs.map (fun kv => (renameKey kv.1, kv.2))

/-- Renaming applied to a whole frame. -/
def renameHW (f : Frame) : Frame :=
  ⟨f.cols.map renameKey, f.rows.map (fun r => ⟨r.player, renameCells r.cells⟩)⟩

/-- `_process_data(stats_df, players_df)`: returns the sorted distinct
player-name list (stored by the Python code into `self._player_names`
before any later step can fail) together with the aggregation result or
the error that aborted it. -/
def processData (stats : List GameRow) (players : List PlayerRow) :
    List String × Except AggErr Frame :=
  let names := dedupSort (stats.map mkPlayerName)
  (names,
    match mergeOuter (calculateStats (regularRows stats) "Regular")
        (calculateStats (playoffRows stats) "Playoffs") with
    | .error e => .error e
    | .ok m1 =>
      match mergeOuter (some m1) (calculateStats (nonPreRows stats) "Career") with
      | .error e => .error e
      | .ok m2 =>
        let withCur := mergeLeft (fillna0 m2) (currentFrame (currentRows stats))
        .ok (renameHW (mergeLeft withCur (playersFrame players))))

/-- The contribution of one subset (`Regular`/`Playoffs`/`Career`) to a
player's merged row: that player's group cells if the player has rows in
the subset, otherwise the `NaN` fill the outer merge produces. -/
def partCells (pre : String) (sub : List GameRow) (q : String) : List (String × PVal) :=
  if q ∈ groupKeys sub then statCells pre (rowsOf sub q) else nanFillCells (statColsP pre)

/-- The contribution of the current-season left-join to a player's row. -/
def curCellsOf (stats : List GameRow) (q : String) : List (String × PVal) :=
  if q ∈ groupKeys (currentRows stats) then meanCells (rowsOf (currentRows stats) q)
  else nanFillCells currentCols

/-- The non-bio cells of player `q`'s final row: the zero-filled outer
join of the three subset contributions, followed by the (unfilled)
current-season cells. -/
def mainCells (stats : List GameRow) (q : String) : List (String × PVal) :=
  fillCellsL ((partCells "Regular" (regularRows stats) q ++
      partCells "Playoffs" (playoffRows stats) q) ++
    partCells "Career" (nonPreRows stats) q) ++ curCellsOf stats q

/-- The player keys of the final aggregate frame, in order: the sorted
union of the three subsets' group keys. -/
def outKeys (stats : List GameRow) : List String :=
  dedupSort (dedupSort (groupKeys (regularRows stats) ++ groupKeys (playoffRows stats)) ++
    groupKeys (nonPreRows stats))

/-! ### Refreshable cache (`KaggleDataFetcher`) -/

/-- The mutable fields of `KaggleDataFetcher`. -/
structure FetcherState where
  cache : Option Frame
  lastFetch : Option ℚ
  playerNames : Option (List String)
deriving DecidableEq

/-- The state at construction time. -/
def initState : FetcherState := ⟨none, none, none⟩

/-- `self._cache_duration = timedelta(hours=1)`, in seconds. -/
def cacheDuration : ℚ := 3600

/-- The refresh condition: cache empty, never fetched, or fetched longer
than the cache duration ago. -/
def staleCheck (st : FetcherState) (now : ℚ) : Bool :=
  match st.cache, st.lastFetch with
  | some _, some lf => decide (cacheDuration < now - lf)
  | _, _ => true

/-- The outcome of one call to the external Kaggle download: either both
raw tables, or a failure (network, auth, missing file). -/
inductive FetchOutcome where
  | ok (stats : List GameRow) (players : List PlayerRow)
  | err
deriving DecidableEq

/-- Errors a refresh can surface. -/
inductive RefreshErr where
  | fetchFailed
  | aggFailed
deriving DecidableEq

/-- `self._fetch_data()`: download then `_process_data`.  On a download
failure the state is untouched; once `_process_data` runs, the player-name
list has been overwritten even if aggregation fails afterwards. -/
def fetchDataM (st : FetcherState) (fo : FetchOutcome) :
    FetcherState × Except RefreshErr Frame :=
  match fo with
  | .err => (st, .error .fetchFailed)
  | .ok stats players =>
    match processData stats players with
    | (names, .ok f) => ({ st with playerNames := some names }, .ok f)
    | (names, .error _) => ({ st with playerNames := some names }, .error .aggFailed)

/-- `get_all_players()`.  `tCheck` is the `datetime.now()` used in the
staleness test, `tSet` the one stored after a successful fetch.  The
`Bool` reports whether `_fetch_data` was invoked.  The `except` clause of
the Python code turns any refresh failure into a plain `[]`. -/
def getAllPlayers (st : FetcherState) (tCheck tSet : ℚ) (fo : FetchOutcome) :
    List String × FetcherState × Bool :=
  if staleCheck st tCheck then
    match fetchDataM st fo with
    | (st2, .ok f) =>
      let st3 : FetcherState := { st2 with cache := some f, lastFetch := some tSet }
      (st3.playerNames.getD [], st3, true)
    | (st2, .error _) => ([], st2, true)
  else (st.playerNames.getD [], st, false)

/-- The row lookup and per-value sanitation of `get_player_stats`: first
row whose lowercased player name equals the lowercased query, converted to
a dict (the `Player` column included) with every float cleaned. -/
def lookupStats (f : Frame) (name : String) : Option (List (String × PVal)) :=
  (f.rows.find? (fun r => lowerStr r.player == lowerStr name)).map
    (fun r => ("Player", PVal.str r.player) :: r.cells.map (fun kv => (kv.1, sanitizeVal kv.2)))

/-- `get_player_stats(player_name)`.  The `except` clause turns any
refresh failure into `None`. -/
def getPlayerStatsOp (st : FetcherState) (tCheck tSet : ℚ) (fo : FetchOutcome)
    (name : String) : Option (List (String × PVal)) × FetcherState × Bool :=
  if staleCheck st tCheck then
    match fetchDataM st fo with
    | (st2, .ok f) =>
      let st3 : FetcherState := { st2 with cache := some f, lastFetch := some tSet }
      (lookupStats f name, st3, true)
    | (st2, .error _) => (none, st2, true)
  else
    match st.cache with
    | some c => (lookupStats c name, st, false)
    | none => (none, st, false)

/-- `get_comparison_stats(player1, player2)`: two `get_player_stats`
calls (each with its own fetch outcome), then Python truthiness —
`None` or an empty dict on either side yields `None`. -/
def getComparisonStats (st : FetcherState) (tCheck tSet : ℚ)
    (fo1 fo2 : FetchOutcome) (p1 p2 : String) :
    Option (List (String × PVal) × List (String × PVal)) × FetcherState :=
  let r1 := getPlayerStatsOp st tCheck tSet fo1 p1
  let r2 := getPlayerStatsOp r1.2.1 tCheck tSet fo2 p2
  match r1.1, r2.1 with
  | some c1, some c2 =>
    if c1.isEmpty || c2.isEmpty then (none, r2.2.1) else (some (c1, c2), r2.2.1)
  | _, _ => (none, r2.2.1)

/-! ### Query layer (`main.py`) -/

/-- `normalize_player_name`: `name.replace(" ", "").lower()` — every
space character (U+0020) is removed, then the string is lowercased. -/
def normalize_player_name (name : String) : String :=
  ⟨(name.data.filter (fun c => c ≠ ' ')).map Char.toLower⟩

/-- The player-name resolution loop of the `/player/{player_name}`
endpoint: linear scan, first normalized match (the loop breaks). -/
def resolveFirst (players : List String) (n : String) : Option String :=
  players.find? (fun p => normalize_player_name p == normalize_player_name n)

/-- The player-name resolution loop of the `/compare` endpoints: linear
scan without a break, so the last normalized match wins. -/
def resolveLast (players : List String) (n : String) : Option String :=
  players.reverse.find? (fun p => normalize_player_name p == normalize_player_name n)

/-- The `/compare` endpoint: refresh/read the player list, resolve both
names, 404 (`none`) if either is unresolved, otherwise
`get_comparison_stats` on the resolved names. -/
def compareEndpoint (st : FetcherState) (tCheck tSet : ℚ)
    (fo fo1 fo2 : FetchOutcome) (n1 n2 : String) :
    Option (List (String × PVal) × List (String × PVal)) × FetcherState :=
  let r := getAllPlayers st tCheck tSet fo
  match resolveLast r.1 n1, resolveLast r.1 n2 with
  | some m1, some m2 => getComparisonStats r.2.1 tCheck tSet fo1 fo2 m1 m2
  | _, _ => (none, r.2.1)

/-! ### Definitions following the spec's words (for comparison only) -/

/-- The spec's normalization (§4.3): remove **all whitespace**, then
lowercase.  The code (`replace(" ", "")`) removes only spaces; this
definition follows the spec's words for comparison. -/
def normalizeSpecWS (name : String) : String :=
  ⟨(name.data.filter (fun c => !c.isWhitespace)).map Char.toLower⟩

/-- First-match resolution under the spec's whitespace-removing
normalization, following §4.3 of the spec. -/
def resolveFirstSpecWS (players : List String) (n : String) : Option String :=
  players.find? (fun p => normalizeSpecWS p == normalizeSpecWS n)

/-- `get_snapshot()` as the spec states it (§4.2/§7): on a fetch or
aggregation failure the error **propagates to the caller** and the state
is left exactly as it was.  This definition follows the spec's words, to
be compared with `getAllPlayers`. -/
def getSnapshotSpec (st : FetcherState) (tCheck tSet : ℚ) (fo : FetchOutcome) :
    Except RefreshErr (List String) × FetcherState :=
  if staleCheck st tCheck then
    match fo with
    | .err => (.error .fetchFailed, st)
    | .ok stats players =>
      match processData stats players with
      | (names, .ok f) =>
        (.ok names, ⟨some f, some tSet, some names⟩)
      | (_, .error _) => (.error .aggFailed, st)
  else (.ok (st.playerNames.getD []), st)

/-! ### Auxiliary predicates and concrete data -/

/-- The subset of game rows a statistic prefix ranges over. -/
def subsetRowsFor (pre : String) (stats : List GameRow) : List GameRow :=
  if pre = "Regular" then regularRows stats
  else if pre = "Playoffs" then playoffRows stats
  else nonPreRows stats

/-- A cell is finite when it is not one of the three IEEE specials. -/
def isFiniteV : PVal → Bool
  | .nan => false
  | .inf => false
  | .ninf => false
  | _ => true

/-- Well-formed box scores: in every row each makes column is non-negative
and bounded by its attempts column. -/
def validRows (stats : List GameRow) : Prop :=
  ∀ r ∈ stats,
    (0 ≤ r.fieldGoalsMade ∧ r.fieldGoalsMade ≤ r.fieldGoalsAttempted) ∧
    (0 ≤ r.threePointersMade ∧ r.threePointersMade ≤ r.threePointersAttempted) ∧
    (0 ≤ r.freeThrowsMade ∧ r.freeThrowsMade ≤ r.freeThrowsAttempted)

instance (stats : List GameRow) : Decidable (validRows stats) := by
  unfold validRows
  infer_instance

/-- A box-score row with fixed secondary stats, for concrete scenarios. -/
def sampleRow (fn ln gt : String) (d : Date) (pts : ℚ) : GameRow :=
  { firstName := fn, lastName := ln, gameDate := d, gameType := gt,
    points := pts, assists := 1, reboundsTotal := 2, steals := 0, blocks := 0,
    turnovers := 1, fieldGoalsMade := 2, fieldGoalsAttempted := 5,
    threePointersMade := 1, threePointersAttempted := 2,
    freeThrowsMade := 1, freeThrowsAttempted := 1 }

/-- One player, one regular-season and one playoff game. -/
def wRowsAB : List GameRow :=
  [ sampleRow "A" "B" "Regular Season" ⟨2023, 11, 1⟩ 10,
    sampleRow "A" "B" "Playoffs" ⟨2024, 5, 1⟩ 20 ]

/-- Two players, each with one regular-season and one playoff game. -/
def wRowsTwo : List GameRow :=
  wRowsAB ++
  [ sampleRow "C" "D" "Regular Season" ⟨2023, 12, 1⟩ 8,
    sampleRow "C" "D" "Playoffs" ⟨2024, 4, 20⟩ 12 ]

/-- A preseason-only player next to a player with regular and playoff games. -/
def wRowsPre : List GameRow :=
  [ sampleRow "A" "B" "Preseason" ⟨2023, 10, 10⟩ 5,
    sampleRow "C" "D" "Regular Season" ⟨2023, 11, 1⟩ 10,
    sampleRow "C" "D" "Playoffs" ⟨2024, 5, 1⟩ 20 ]

/-- A row with more field goals made than attempted. -/
def badRow (gt : String) : GameRow :=
  { firstName := "A", lastName := "B", gameDate := ⟨2023, 11, 1⟩, gameType := gt,
    points := 6, assists := 0, reboundsTotal := 0, steals := 0, blocks := 0,
    turnovers := 0, fieldGoalsMade := 3, fieldGoalsAttempted := 1,
    threePointersMade := 0, threePointersAttempted := 0,
    freeThrowsMade := 0, freeThrowsAttempted := 0 }

/-- Two such rows, one per subset, so the aggregation succeeds. -/
def badRows : List GameRow := [badRow "Regular Season", badRow "Playoffs"]

/-- A player-info row for player `A B`. -/
def onePR : PlayerRow :=
  { firstName := "A", lastName := "B", guard := 1, forward := 0, center := 0,
    height := 81, bodyWeight := 250 }

/-- A small populated cache frame. -/
def cexFrame : Frame := ⟨["X"], [⟨"LeBron James", [("X", PVal.num 1)]⟩]⟩

/-- A populated fetcher state: one good snapshot, fetched at time 0. -/
def cexState : FetcherState := ⟨some cexFrame, some 0, some ["LeBron James"]⟩

/-! ### Lookup lemmas -/

theorem alookup_append (k : String) (xs ys : List (String × PVal)) :
    alookup k (xs ++ ys) =
      match alookup k xs with
      | some v => some v
      | none => alookup k ys := by
  induction xs with
  | nil => simp [alookup]
  | cons kv rest ih =>
    by_cases h : kv.1 = k <;> simp [alookup, h, ih]

theorem alookup_eq_none_of_not_mem (k : String) (xs : List (String × PVal))
    (h : k ∉ xs.map Prod.fst) : alookup k xs = none := by
  induction xs with
  | nil => rfl
  | cons kv rest ih =>
    simp only [List.map_cons, List.mem_cons] at h
    push_neg at h
    have h1 : ¬ kv.1 = k := fun hh => h.1 hh.symm
    simp [alookup, h1, ih h.2]

theorem alookup_append_left (k : String) (xs ys : List (String × PVal)) (v : PVal)
    (h : alookup k xs = some v) : alookup k (xs ++ ys) = some v := by
  rw [alookup_append, h]

theorem alookup_append_right (k : String) (xs ys : List (String × PVal))
    (h : k ∉ xs.map Prod.fst) : alookup k (xs ++ ys) = alookup k ys := by
  rw [alookup_append, alookup_eq_none_of_not_mem k xs h]

theorem alookup_map_val (k : String) (f : PVal → PVal) (cs : List (String × PVal)) :
    alookup k (cs.map (fun kv => (kv.1, f kv.2))) = (alookup k cs).map f := by
  induction cs with
  | nil => rfl
  | cons kv rest ih =>
    by_cases h : kv.1 = k <;> simp [alookup, h, ih]

theorem alookup_constmap (k : String) (v : PVal) (cols : List String) (h : k ∈ cols) :
    alookup k (cols.map (fun c => (c, v))) = some v := by
  induction cols with
  | nil => cases h
  | cons c rest ih =>
    rcases List.mem_cons.mp h with h1 | h2
    · simp [alookup, h1]
    · by_cases hc : c = k <;> simp [alookup, hc, ih h2]

theorem map_fst_nanFillCells (cols : List String) :
    (nanFillCells cols).map Prod.fst = cols := by
  induction cols with
  | nil => rfl
  | cons c t ih => simp only [nanFillCells, List.map_cons] at ih ⊢; rw [ih]

theorem map_fst_fillCellsL (cs : List (String × PVal)) :
    (fillCellsL cs).map Prod.fst = cs.map Prod.fst := by
  induction cs with
  | nil => rfl
  | cons kv t ih => simp only [fillCellsL, List.map_cons] at ih ⊢; rw [ih]

theorem alookup_fillCellsL (k : String) (cs : List (String × PVal)) :
    alookup k (fillCellsL cs) = (alookup k cs).map fillVal :=
  alookup_map_val k fillVal cs

theorem alookup_nanFillCells (k : String) (cols : List String) (h : k ∈ cols) :
    alookup k (nanFillCells cols) = some PVal.nan :=
  alookup_constmap k PVal.nan cols h

theorem map_fst_statCells (pre : String) (rows : List GameRow) :
    (statCells pre rows).map Prod.fst = statColsP pre := rfl

theorem map_fst_meanCells (rows : List GameRow) :
    (meanCells rows).map Prod.fst = currentCols := rfl

theorem alookup_renameCells (k : String) (cs : List (String × PVal))
    (h1 : k ≠ "Height") (h2 : k ≠ "Weight") (h3 : k ≠ "height") (h4 : k ≠ "bodyWeight") :
    alookup k (renameCells cs) = alookup k cs := by
  induction cs with
  | nil => rfl
  | cons kv rest ih =>
    have hiff : (renameKey kv.1 = k) ↔ (kv.1 = k) := by
      unfold renameKey
      split_ifs with e1 e2
      · rw [e1]
        constructor
        · intro hh; exact absurd hh.symm h1
        · intro hh; exact absurd hh.symm h3
      · rw [e2]
        constructor
        · intro hh; exact absurd hh.symm h2
        · intro hh; exact absurd hh.symm h4
      · exact Iff.rfl
    by_cases h : kv.1 = k
    · have hr : renameKey kv.1 = k := hiff.mpr h
      simp only [renameCells, List.map_cons, alookup, if_pos hr, if_pos h]
    · have hr : ¬ renameKey kv.1 = k := fun hh => h (hiff.mp hh)
      simp only [renameCells, List.map_cons, alookup, if_neg hr, if_neg h]
      exact ih

/-! ### List utility lemmas -/

theorem flatMap_eq_map_of_forall {α β : Type} (l : List α) (f : α → List β) (g : α → β)
    (h : ∀ a ∈ l, f a = [g a]) : l.flatMap f = l.map g := by
  induction l with
  | nil => rfl
  | cons a t ih =>
    simp only [List.flatMap_cons, List.map_cons, h a (List.mem_cons_self a t)]
    rw [ih (fun b hb => h b (List.mem_cons_of_mem a hb))]
    rfl

theorem flatMap_congr_mem {α β : Type} (l : List α) (f g : α → List β)
    (h : ∀ a ∈ l, f a = g a) : l.flatMap f = l.flatMap g := by
  induction l with
  | nil => rfl
  | cons a t ih =>
    simp only [List.flatMap_cons, h a (List.mem_cons_self a t)]
    rw [ih (fun b hb => h b (List.mem_cons_of_mem a hb))]

theorem map_player_flatMap_singles (l : List FRow) (f : FRow → List FRow)
    (h : ∀ a ∈ l, ∃ x, f a = [x] ∧ x.player = a.player) :
    (l.flatMap f).map (·.player) = l.map (·.player) := by
  induction l with
  | nil => rfl
  | cons a t ih =>
    obtain ⟨x, hx, hxp⟩ := h a (List.mem_cons_self a t)
    simp only [List.flatMap_cons, List.map_cons, List.map_append, hx]
    rw [ih (fun b hb => h b (List.mem_cons_of_mem a hb))]
    simp [hxp]

theorem filter_mapped_keys (ks : List String) (g : String → FRow) (p : String)
    (hnd : ks.Nodup) (hg : ∀ k, (g k).player = k) :
    (ks.map g).filter (fun r => r.player = p) = if p ∈ ks then [g p] else [] := by
  induction ks with
  | nil => simp
  | cons a t ih =>
    have hnd' : t.Nodup := hnd.of_cons
    have hpt : a ∉ t := (List.nodup_cons.mp hnd).1
    rw [List.map_cons]
    by_cases hap : a = p
    · have hpnt : p ∉ t := fun hh => hpt (hap ▸ hh)
      rw [List.filter_cons_of_pos (by simp [hg, hap]), ih hnd', if_neg hpnt,
        if_pos (List.mem_cons.mpr (Or.inl hap.symm))]
      rw [hap]
    · rw [List.filter_cons_of_neg (by simp [hg, hap]), ih hnd']
      by_cases hp : p ∈ t
      · rw [if_pos hp, if_pos (List.mem_cons.mpr (Or.inr hp))]
      · have hno : p ∉ a :: t := by
          intro hh
          rcases List.mem_cons.mp hh with hh1 | hh2
          · exact hap hh1.symm
          · exact hp hh2
        rw [if_neg hp, if_neg hno]

/-! ### dedupSort lemmas -/

theorem dedupSort_perm_dedup (l : List String) : List.Perm (dedupSort l) l.dedup :=
  List.perm_insertionSort _ _

theorem mem_dedupSort (a : String) (l : List String) : a ∈ dedupSort l ↔ a ∈ l := by
  rw [(dedupSort_perm_dedup l).mem_iff, List.mem_dedup]

theorem nodup_dedupSort (l : List String) : (dedupSort l).Nodup :=
  (dedupSort_perm_dedup l).nodup_iff.mpr (List.nodup_dedup l)

theorem count_dedupSort_of_mem (a : String) (l : List String) (h : a ∈ l) :
    (dedupSort l).count a = 1 := by
  rw [(dedupSort_perm_dedup l).count_eq, List.count_dedup]
  simp [h]

/-! ### Merge shape lemmas -/

theorem nanFillCells_append (c1 c2 : List String) :
    nanFillCells (c1 ++ c2) = nanFillCells c1 ++ nanFillCells c2 :=
  List.map_append _ c1 c2

theorem frame_names_of_map (f : Frame) (ks : List String) (g : String → FRow)
    (hrows : f.rows = ks.map g) (hg : ∀ k, (g k).player = k) : f.names = ks := by
  rw [Frame.names, hrows, List.map_map]
  have : (fun r => FRow.player r) ∘ g = id := funext fun k => hg k
  rw [this, List.map_id]

theorem mergeOuter_shape (a b : Frame) (ka kb : List String) (ga gb : String → FRow)
    (ha : a.rows = ka.map ga) (hka : ka.Nodup) (hga : ∀ k, (ga k).player = k)
    (hb : b.rows = kb.map gb) (hkb : kb.Nodup) (hgb : ∀ k, (gb k).player = k) :
    mergeOuter (some a) (some b) = .ok ⟨a.cols ++ b.cols,
      (dedupSort (ka ++ kb)).map (fun p => ⟨p,
        (if p ∈ ka then (ga p).cells else nanFillCells a.cols) ++
        (if p ∈ kb then (gb p).cells else nanFillCells b.cols)⟩)⟩ := by
  have hna : a.names = ka := frame_names_of_map a ka ga ha hga
  have hnb : b.names = kb := frame_names_of_map b kb gb hb hgb
  simp only [mergeOuter, hna, hnb]
  refine congrArg (fun rows => Except.ok (⟨a.cols ++ b.cols, rows⟩ : Frame)) ?_
  apply flatMap_eq_map_of_forall
  intro p hp
  have hp' : p ∈ ka ∨ p ∈ kb := List.mem_append.mp ((mem_dedupSort p _).mp hp)
  rw [ha, hb, filter_mapped_keys ka ga p hka hga, filter_mapped_keys kb gb p hkb hgb]
  by_cases h1 : p ∈ ka <;> by_cases h2 : p ∈ kb
  · rw [if_pos h1, if_pos h2, if_pos h1, if_pos h2]
    simp [hga p]
  · rw [if_pos h1, if_neg h2, if_pos h1, if_neg h2]
    simp [hga p]
  · rw [if_neg h1, if_pos h2, if_neg h1, if_pos h2]
    simp [hgb p]
  · rcases hp' with h | h
    · exact absurd h h1
    · exact absurd h h2

theorem mergeLeft_shape (a b : Frame) (kb : List String) (gb : String → FRow)
    (hb : b.rows = kb.map gb) (hkb : kb.Nodup) (hgb : ∀ k, (gb k).player = k) :
    mergeLeft a b = ⟨a.cols ++ b.cols, a.rows.map (fun ra => ⟨ra.player,
      ra.cells ++ (if ra.player ∈ kb then (gb ra.player).cells else nanFillCells b.cols)⟩)⟩ := by
  simp only [mergeLeft]
  refine congrArg (Frame.mk (a.cols ++ b.cols)) ?_
  apply flatMap_eq_map_of_forall
  intro ra _
  rw [hb, filter_mapped_keys kb gb ra.player hkb hgb]
  by_cases h : ra.player ∈ kb
  · rw [if_pos h, if_pos h]
    rfl
  · rw [if_neg h, if_neg h]

theorem length_filter_player_eq_count (rows : List FRow) (p : String) :
    (rows.filter (fun r => r.player = p)).length = (rows.map (·.player)).count p := by
  induction rows with
  | nil => rfl
  | cons r t ih =>
    by_cases h : r.player = p
    · rw [List.filter_cons_of_pos (by simp [h]), List.map_cons, List.count_cons]
      simp [h, ih]
    · rw [List.filter_cons_of_neg (by simp [h]), List.map_cons, List.count_cons]
      simp [h, ih]

theorem mem_mergeLeft_rows (a b : Frame) (row : FRow) (h : row ∈ (mergeLeft a b).rows) :
    ∃ ra ∈ a.rows, row.player = ra.player ∧
      (row.cells = ra.cells ++ nanFillCells b.cols ∨
       ∃ rb ∈ b.rows, rb.player = ra.player ∧ row.cells = ra.cells ++ rb.cells) := by
  simp only [mergeLeft] at h
  rw [List.mem_flatMap] at h
  obtain ⟨ra, hra, hrow⟩ := h
  refine ⟨ra, hra, ?_⟩
  rcases hfil : b.rows.filter (fun r => r.player = ra.player) with _ | ⟨rb0, bs'⟩
  · rw [hfil] at hrow
    simp only [List.mem_singleton] at hrow
    rw [hrow]
    exact ⟨rfl, Or.inl rfl⟩
  · rw [hfil] at hrow
    rw [List.mem_map] at hrow
    obtain ⟨rb, hrb, hrow⟩ := hrow
    have hrb' : rb ∈ b.rows.filter (fun r => r.player = ra.player) := by
      rw [hfil]; exact hrb
    have hmf := List.mem_filter.mp hrb'
    rw [← hrow]
    exact ⟨rfl, Or.inr ⟨rb, hmf.1, by simpa using hmf.2, rfl⟩⟩

theorem mergeLeft_map_player_of_unique (a b : Frame)
    (h : (b.rows.map (·.player)).Nodup) :
    (mergeLeft a b).rows.map (·.player) = a.rows.map (·.player) := by
  simp only [mergeLeft]
  apply map_player_flatMap_singles
  intro ra _
  have hlen : (b.rows.filter (fun r => r.player = ra.player)).length ≤ 1 := by
    rw [length_filter_player_eq_count]
    exact List.nodup_iff_count_le_one.mp h ra.player
  rcases hfil : b.rows.filter (fun r => r.player = ra.player) with _ | ⟨rb0, bs'⟩
  · exact ⟨⟨ra.player, ra.cells ++ nanFillCells b.cols⟩, by rw [hfil], rfl⟩
  · cases bs' with
    | nil => exact ⟨⟨ra.player, ra.cells ++ rb0.cells⟩, by rw [hfil]; rfl, rfl⟩
    | cons x xs =>
      rw [hfil] at hlen
      simp at hlen

theorem calculateStats_ne_nil (df : List GameRow) (pre : String) (h : df ≠ []) :
    calculateStats df pre = some ⟨statColsP pre,
      (groupKeys df).map (fun p => ⟨p, statCells pre (rowsOf df p)⟩)⟩ := by
  cases df with
  | nil => exact absurd rfl h
  | cons r t => rfl

theorem nonPre_ne_nil_of_regular (stats : List GameRow) (hr : regularRows stats ≠ []) :
    nonPreRows stats ≠ [] := by
  intro h0
  apply hr
  unfold regularRows
  rw [h0]
  rfl

/-- The central characterization of a successful aggregation run: when both
the regular-season and the playoff subsets are non-empty, the pipeline
succeeds and every output row is one of the sorted union keys carrying its
`mainCells`, expanded by the matching player-info rows. -/
theorem processData_rows_eq (stats : List GameRow) (players : List PlayerRow)
    (hr : regularRows stats ≠ []) (hp : playoffRows stats ≠ []) :
    ∃ F, (processData stats players).2 = .ok F ∧
      F.rows = (outKeys stats).flatMap (fun q =>
        match (playersFrame players).rows.filter (fun r => r.player = q) with
        | [] => [⟨q, renameCells (mainCells stats q ++ nanFillCells pbCols)⟩]
        | bs => bs.map (fun rb => ⟨q, renameCells (mainCells stats q ++ rb.cells)⟩)) := by
  have hnp : nonPreRows stats ≠ [] := nonPre_ne_nil_of_regular stats hr
  have e1 := calculateStats_ne_nil (regularRows stats) "Regular" hr
  have e2 := calculateStats_ne_nil (playoffRows stats) "Playoffs" hp
  have e3 := calculateStats_ne_nil (nonPreRows stats) "Career" hnp
  have hM1 := mergeOuter_shape
    ⟨statColsP "Regular", (groupKeys (regularRows stats)).map
      (fun p => ⟨p, statCells "Regular" (rowsOf (regularRows stats) p)⟩)⟩
    ⟨statColsP "Playoffs", (groupKeys (playoffRows stats)).map
      (fun p => ⟨p, statCells "Playoffs" (rowsOf (playoffRows stats) p)⟩)⟩
    (groupKeys (regularRows stats)) (groupKeys (playoffRows stats))
    (fun p => ⟨p, statCells "Regular" (rowsOf (regularRows stats) p)⟩)
    (fun p => ⟨p, statCells "Playoffs" (rowsOf (playoffRows stats) p)⟩)
    rfl (nodup_dedupSort _) (fun _ => rfl)
    rfl (nodup_dedupSort _) (fun _ => rfl)
  set u1 : List String :=
    dedupSort (groupKeys (regularRows stats) ++ groupKeys (playoffRows stats)) with hu1
  set g1 : String → FRow := fun p =>
    ⟨p, (if p ∈ groupKeys (regularRows stats)
          then statCells "Regular" (rowsOf (regularRows stats) p)
          else nanFillCells (statColsP "Regular")) ++
        (if p ∈ groupKeys (playoffRows stats)
          then statCells "Playoffs" (rowsOf (playoffRows stats) p)
          else nanFillCells (statColsP "Playoffs"))⟩ with hg1
  have hM2 := mergeOuter_shape
    ⟨statColsP "Regular" ++ statColsP "Playoffs", u1.map g1⟩
    ⟨statColsP "Career", (groupKeys (nonPreRows stats)).map
      (fun p => ⟨p, statCells "Career" (rowsOf (nonPreRows stats) p)⟩)⟩
    u1 (groupKeys (nonPreRows stats))
    g1 (fun p => ⟨p, statCells "Career" (rowsOf (nonPreRows stats) p)⟩)
    rfl (nodup_dedupSort _) (fun _ => rfl)
    rfl (nodup_dedupSort _) (fun _ => rfl)
  set u2 : List String := dedupSort (u1 ++ groupKeys (nonPreRows stats)) with hu2
  have hinner : (fun p => (⟨p,
      (if p ∈ u1 then (g1 p).cells
        else nanFillCells (statColsP "Regular" ++ statColsP "Playoffs")) ++
      (if p ∈ groupKeys (nonPreRows stats)
        then statCells "Career" (rowsOf (nonPreRows stats) p)
        else nanFillCells (statColsP "Career"))⟩ : FRow)) =
      (fun p => (⟨p,
        (partCells "Regular" (regularRows stats) p ++
         partCells "Playoffs" (playoffRows stats) p) ++
        partCells "Career" (nonPreRows stats) p⟩ : FRow)) := by
    funext p
    have hcar : (if p ∈ groupKeys (nonPreRows stats)
        then statCells "Career" (rowsOf (nonPreRows stats) p)
        else nanFillCells (statColsP "Career")) =
        partCells "Career" (nonPreRows stats) p := rfl
    have hleft : (if p ∈ u1 then (g1 p).cells
        else nanFillCells (statColsP "Regular" ++ statColsP "Playoffs")) =
        partCells "Regular" (regularRows stats) p ++
          partCells "Playoffs" (playoffRows stats) p := by
      by_cases h : p ∈ u1
      · rw [if_pos h]
        rfl
      · rw [if_neg h]
        have h1 : p ∉ groupKeys (regularRows stats) := fun hh =>
          h ((mem_dedupSort p _).mpr (List.mem_append.mpr (Or.inl hh)))
        have h2 : p ∉ groupKeys (playoffRows stats) := fun hh =>
          h ((mem_dedupSort p _).mpr (List.mem_append.mpr (Or.inr hh)))
        rw [nanFillCells_append]
        unfold partCells
        rw [if_neg h1, if_neg h2]
    rw [hcar, hleft]
  rw [hinner] at hM2
  have hfill : fillna0 ⟨(statColsP "Regular" ++ statColsP "Playoffs") ++ statColsP "Career",
      u2.map (fun p => (⟨p,
        (partCells "Regular" (regularRows stats) p ++
         partCells "Playoffs" (playoffRows stats) p) ++
        partCells "Career" (nonPreRows stats) p⟩ : FRow))⟩ =
      ⟨(statColsP "Regular" ++ statColsP "Playoffs") ++ statColsP "Career",
        u2.map (fun p => (⟨p, fillCellsL
          ((partCells "Regular" (regularRows stats) p ++
            partCells "Playoffs" (playoffRows stats) p) ++
           partCells "Career" (nonPreRows stats) p)⟩ : FRow))⟩ := by
    simp only [fillna0, List.map_map]
    rfl
  have hcur := mergeLeft_shape
    ⟨(statColsP "Regular" ++ statColsP "Playoffs") ++ statColsP "Career",
      u2.map (fun p => (⟨p, fillCellsL
        ((partCells "Regular" (regularRows stats) p ++
          partCells "Playoffs" (playoffRows stats) p) ++
         partCells "Career" (nonPreRows stats) p)⟩ : FRow))⟩
    (currentFrame (currentRows stats))
    (groupKeys (currentRows stats))
    (fun p => ⟨p, meanCells (rowsOf (currentRows stats) p)⟩)
    rfl (nodup_dedupSort _) (fun _ => rfl)
  have hcur2 : mergeLeft
      ⟨(statColsP "Regular" ++ statColsP "Playoffs") ++ statColsP "Career",
        u2.map (fun p => (⟨p, fillCellsL
          ((partCells "Regular" (regularRows stats) p ++
            partCells "Playoffs" (playoffRows stats) p) ++
           partCells "Career" (nonPreRows stats) p)⟩ : FRow))⟩
      (currentFrame (currentRows stats)) =
      ⟨((statColsP "Regular" ++ statColsP "Playoffs") ++ statColsP "Career") ++ currentCols,
        u2.map (fun p => (⟨p, mainCells stats p⟩ : FRow))⟩ := by
    rw [hcur]
    refine congrArg _ ?_
    rw [List.map_map]
    rfl
  refine ⟨renameHW (mergeLeft
      ⟨((statColsP "Regular" ++ statColsP "Playoffs") ++ statColsP "Career") ++ currentCols,
        u2.map (fun p => (⟨p, mainCells stats p⟩ : FRow))⟩
      (playersFrame players)), ?_, ?_⟩
  · simp only [processData, e1, e2, hM1, e3, hM2, hfill, hcur2]
  · simp only [renameHW, mergeLeft, List.flatMap_map, List.map_flatMap]
    apply flatMap_congr_mem
    intro q _
    rcases hfil : (playersFrame players).rows.filter (fun r => r.player = q)
      with _ | ⟨rb0, bs'⟩
    · rw [hfil]
      rfl
    · rw [hfil]
      simp only [List.map_map]
      rfl

theorem processData_ok_subsets (stats : List GameRow) (players : List PlayerRow)
    (F : Frame) (h : (processData stats players).2 = .ok F) :
    regularRows stats ≠ [] ∧ playoffRows stats ≠ [] := by
  by_cases h0 : regularRows stats = []
  · exfalso
    simp [processData, h0, calculateStats, mergeOuter] at h
  · refine ⟨h0, ?_⟩
    intro h1
    simp [processData, h1, calculateStats_ne_nil (regularRows stats) "Regular" h0,
      calculateStats, mergeOuter] at h

theorem mem_processData_rows (stats : List GameRow) (players : List PlayerRow)
    (F : Frame) (row : FRow)
    (h : (processData stats players).2 = .ok F) (hrow : row ∈ F.rows) :
    ∃ q, q ∈ outKeys stats ∧ row.player = q ∧
      (row.cells = renameCells (mainCells stats q ++ nanFillCells pbCols) ∨
       ∃ pr ∈ players, mkPRName pr = q ∧
         row.cells = renameCells (mainCells stats q ++
           [("Position", PVal.str (positionOf pr)), ("height", PVal.num pr.height),
            ("bodyWeight", PVal.num pr.bodyWeight)])) := by
  obtain ⟨hreg, hpo⟩ := processData_ok_subsets stats players F h
  obtain ⟨F', hF', hrows⟩ := processData_rows_eq stats players hreg hpo
  rw [h] at hF'
  have hFF : F = F' := Except.ok.inj hF'
  rw [hFF, hrows] at hrow
  rw [List.mem_flatMap] at hrow
  obtain ⟨q, hq, hin⟩ := hrow
  refine ⟨q, hq, ?_⟩
  rcases hfil : (playersFrame players).rows.filter (fun r => r.player = q)
    with _ | ⟨rb0, bs'⟩
  · rw [hfil] at hin
    simp only [List.mem_singleton] at hin
    rw [hin]
    exact ⟨rfl, Or.inl rfl⟩
  · rw [hfil] at hin
    rw [List.mem_map] at hin
    obtain ⟨rb, hrb, hrbe⟩ := hin
    have hrb2 : rb ∈ (playersFrame players).rows.filter (fun r => r.player = q) := by
      rw [hfil]; exact hrb
    have hmem := List.mem_filter.mp hrb2
    have hbrows : rb ∈ players.map (fun pr => (⟨mkPRName pr,
        [("Position", PVal.str (positionOf pr)), ("height", PVal.num pr.height),
         ("bodyWeight", PVal.num pr.bodyWeight)]⟩ : FRow)) := hmem.1
    rw [List.mem_map] at hbrows
    obtain ⟨pr, hpr, hpre⟩ := hbrows
    have hbp : rb.player = q := by simpa using hmem.2
    rw [← hrbe]
    refine ⟨rfl, Or.inr ⟨pr, hpr, ?_, ?_⟩⟩
    · rw [← hpre] at hbp
      exact hbp
    · rw [← hpre]

theorem map_player_flatMap_key (l : List String) (f : String → List FRow)
    (h : ∀ q ∈ l, ∃ x, f q = [x] ∧ x.player = q) :
    (l.flatMap f).map (·.player) = l := by
  induction l with
  | nil => rfl
  | cons a t ih =>
    obtain ⟨x, hx, hxp⟩ := h a (List.mem_cons_self a t)
    simp only [List.flatMap_cons, List.map_append, hx]
    rw [ih (fun b hb => h b (List.mem_cons_of_mem a hb))]
    simp [hxp]

/-! ### Cell lookup paths through the final row -/

theorem alookup_isSome_of_mem_keys (k : String) (cs : List (String × PVal))
    (h : k ∈ cs.map Prod.fst) : ∃ v, alookup k cs = some v := by
  induction cs with
  | nil => cases h
  | cons kv rest ih =>
    by_cases hk : kv.1 = k
    · exact ⟨kv.2, by simp [alookup, hk]⟩
    · rcases List.mem_cons.mp h with h1 | h2
      · exact absurd h1.symm hk
      · obtain ⟨v, hv⟩ := ih h2
        exact ⟨v, by simp [alookup, hk, hv]⟩

theorem partCells_keys (pre : String) (sub : List GameRow) (q : String) :
    (partCells pre sub q).map Prod.fst = statColsP pre := by
  unfold partCells
  split_ifs
  · exact map_fst_statCells pre _
  · exact map_fst_nanFillCells _

theorem curCellsOf_keys (stats : List GameRow) (q : String) :
    (curCellsOf stats q).map Prod.fst = currentCols := by
  unfold curCellsOf
  split_ifs
  · exact map_fst_meanCells _
  · exact map_fst_nanFillCells _

theorem fillCellsL_append (xs ys : List (String × PVal)) :
    fillCellsL (xs ++ ys) = fillCellsL xs ++ fillCellsL ys :=
  List.map_append _ xs ys

theorem alookup_mainCells_regular (stats : List GameRow) (q k : String)
    (hk : k ∈ statColsP "Regular") :
    alookup k (mainCells stats q) =
      (alookup k (partCells "Regular" (regularRows stats) q)).map fillVal := by
  obtain ⟨v, hv⟩ := alookup_isSome_of_mem_keys k (partCells "Regular" (regularRows stats) q)
    (by rw [partCells_keys]; exact hk)
  unfold mainCells
  rw [fillCellsL_append, fillCellsL_append]
  have h1 : alookup k (fillCellsL (partCells "Regular" (regularRows stats) q)) =
      some (fillVal v) := by
    rw [alookup_fillCellsL, hv]; rfl
  rw [alookup_append_left _ _ _ _ (alookup_append_left _ _ _ _
    (alookup_append_left _ _ _ _ h1)), hv]
  rfl

theorem alookup_mainCells_playoffs (stats : List GameRow) (q k : String)
    (hk : k ∈ statColsP "Playoffs") (hnr : k ∉ statColsP "Regular") :
    alookup k (mainCells stats q) =
      (alookup k (partCells "Playoffs" (playoffRows stats) q)).map fillVal := by
  obtain ⟨v, hv⟩ := alookup_isSome_of_mem_keys k (partCells "Playoffs" (playoffRows stats) q)
    (by rw [partCells_keys]; exact hk)
  unfold mainCells
  rw [fillCellsL_append, fillCellsL_append]
  have h0 : k ∉ (fillCellsL (partCells "Regular" (regularRows stats) q)).map Prod.fst := by
    rw [map_fst_fillCellsL, partCells_keys]; exact hnr
  have h1 : alookup k (fillCellsL (partCells "Playoffs" (playoffRows stats) q)) =
      some (fillVal v) := by
    rw [alookup_fillCellsL, hv]; rfl
  rw [alookup_append_left _ _ _ _ (alookup_append_left _ _ _ _ ?_), hv]
  · rfl
  · rw [alookup_append_right _ _ _ h0]
    exact h1

theorem alookup_mainCells_career (stats : List GameRow) (q k : String)
    (hk : k ∈ statColsP "Career") (hnr : k ∉ statColsP "Regular")
    (hnpo : k ∉ statColsP "Playoffs") :
    alookup k (mainCells stats q) =
      (alookup k (partCells "Career" (nonPreRows stats) q)).map fillVal := by
  obtain ⟨v, hv⟩ := alookup_isSome_of_mem_keys k (partCells "Career" (nonPreRows stats) q)
    (by rw [partCells_keys]; exact hk)
  unfold mainCells
  rw [fillCellsL_append, fillCellsL_append]
  have h0 : k ∉ (fillCellsL (partCells "Regular" (regularRows stats) q)).map Prod.fst := by
    rw [map_fst_fillCellsL, partCells_keys]; exact hnr
  have h0p : k ∉ (fillCellsL (partCells "Playoffs" (playoffRows stats) q)).map Prod.fst := by
    rw [map_fst_fillCellsL, partCells_keys]; exact hnpo
  have h1 : alookup k (fillCellsL (partCells "Career" (nonPreRows stats) q)) =
      some (fillVal v) := by
    rw [alookup_fillCellsL, hv]; rfl
  rw [alookup_append_left _ _ _ _ ?_, hv]
  · rfl
  · rw [alookup_append_right _ _ _ (by
      rw [List.map_append]
      intro hmem
      rcases List.mem_append.mp hmem with hmem | hmem
      · exact h0 hmem
      · exact h0p hmem)]
    exact h1

theorem alookup_mainCells_current (stats : List GameRow) (q k : String)
    (hnr : k ∉ statColsP "Regular")
    (hnpo : k ∉ statColsP "Playoffs") (hnc : k ∉ statColsP "Career") :
    alookup k (mainCells stats q) = alookup k (curCellsOf stats q) := by
  unfold mainCells
  apply alookup_append_right
  rw [map_fst_fillCellsL, List.map_append, List.map_append]
  intro hmem
  rcases List.mem_append.mp hmem with hmem | hmem
  · rcases List.mem_append.mp hmem with hmem | hmem
    · rw [partCells_keys] at hmem; exact hnr hmem
    · rw [partCells_keys] at hmem; exact hnpo hmem
  · rw [partCells_keys] at hmem; exact hnc hmem

theorem alookup_final_cells (stats : List GameRow) (q k : String)
    (bio : List (String × PVal)) (v : PVal)
    (h1 : k ≠ "Height") (h2 : k ≠ "Weight") (h3 : k ≠ "height") (h4 : k ≠ "bodyWeight")
    (hv : alookup k (mainCells stats q) = some v) :
    alookup k (renameCells (mainCells stats q ++ bio)) = some v := by
  rw [alookup_renameCells _ _ h1 h2 h3 h4]
  exact alookup_append_left _ _ _ _ hv

theorem mem_groupKeys_iff (df : List GameRow) (q : String) :
    q ∈ groupKeys df ↔ rowsOf df q ≠ [] := by
  unfold groupKeys rowsOf
  rw [mem_dedupSort]
  constructor
  · intro h hnil
    rw [List.mem_map] at h
    obtain ⟨r, hr, hrq⟩ := h
    have : r ∈ df.filter (fun r => mkPlayerName r = q) :=
      List.mem_filter.mpr ⟨hr, by simp [hrq]⟩
    rw [hnil] at this
    cases this
  · intro h
    rcases hf : df.filter (fun r => mkPlayerName r = q) with _ | ⟨r, t⟩
    · exact absurd hf h
    · have : r ∈ df.filter (fun r => mkPlayerName r = q) := by rw [hf]; exact List.mem_cons_self r t
      have hm := List.mem_filter.mp this
      rw [List.mem_map]
      exact ⟨r, hm.1, by simpa using hm.2⟩

theorem rowsOf_filter (l : List GameRow) (pred : GameRow → Bool) (q : String) :
    rowsOf (l.filter pred) q = (rowsOf l q).filter pred := by
  unfold rowsOf
  induction l with
  | nil => rfl
  | cons r t ih =>
    by_cases hp : pred r <;> by_cases hq : mkPlayerName r = q <;>
      simp [List.filter_cons, hp, hq, ih]

/-! ### Rounding and percentage arithmetic -/

theorem ratFloor_eq_floor (x : ℚ) : Rat.floor x = ⌊x⌋ := rfl

theorem rhe_nonneg (x : ℚ) (h : 0 ≤ x) : 0 ≤ rhe x := by
  simp only [rhe, ratFloor_eq_floor]
  have hf : (0:ℤ) ≤ ⌊x⌋ := Int.floor_nonneg.mpr h
  split_ifs <;> omega

theorem rhe_le_of_le (x : ℚ) (c : ℤ) (h : x ≤ (c:ℚ)) : rhe x ≤ c := by
  simp only [rhe, ratFloor_eq_floor]
  have hfc : ⌊x⌋ ≤ c := by
    have := Int.floor_le_floor h
    rwa [Int.floor_intCast] at this
  have hfl : (⌊x⌋ : ℚ) ≤ x := Int.floor_le x
  split_ifs with h1 h2 h3
  · exact hfc
  · have hlt : (⌊x⌋ : ℚ) < x := by linarith
    have : (⌊x⌋ : ℚ) < (c:ℚ) := lt_of_lt_of_le hlt h
    have : ⌊x⌋ < c := by exact_mod_cast this
    omega
  · exact hfc
  · have hlt : (⌊x⌋ : ℚ) < x := by
      have hge : (1:ℚ)/2 ≤ x - ⌊x⌋ := le_of_not_lt h1
      linarith
    have : (⌊x⌋ : ℚ) < (c:ℚ) := lt_of_lt_of_le hlt h
    have : ⌊x⌋ < c := by exact_mod_cast this
    omega

theorem rnd1_nonneg (q : ℚ) (h : 0 ≤ q) : 0 ≤ rnd1 q := by
  unfold rnd1
  have h10 : 0 ≤ rhe (q * 10) := rhe_nonneg _ (by linarith)
  have : (0:ℚ) ≤ (rhe (q * 10) : ℚ) := by exact_mod_cast h10
  linarith

theorem rnd1_le_100 (q : ℚ) (h : q ≤ 100) : rnd1 q ≤ 100 := by
  unfold rnd1
  have h10 : rhe (q * 10) ≤ 1000 := by
    apply rhe_le_of_le
    push_cast
    linarith
  have : (rhe (q * 10) : ℚ) ≤ 1000 := by exact_mod_cast h10
  linarith

theorem rnd1_zero : rnd1 0 = 0 := by decide

theorem sanitize_pct_bound (m a : ℚ) (hm : 0 ≤ m) (hma : m ≤ a) :
    ∃ x : ℚ, sanitizeVal (fillVal (pround1 (pmul100 (qdiv m a)))) = .num x ∧
      0 ≤ x ∧ x ≤ 100 ∧ (a = 0 → x = 0) := by
  by_cases ha : a = 0
  · have hm0 : m = 0 := le_antisymm (ha ▸ hma) hm
    refine ⟨0, ?_, le_refl 0, by norm_num, fun _ => rfl⟩
    simp [qdiv, ha, hm0, pmul100, pround1, fillVal, sanitizeVal, rnd1_zero]
  · have ha' : 0 < a := lt_of_le_of_ne (le_trans hm hma) (Ne.symm ha)
    have hdiv : qdiv m a = .num (m / a) := by simp [qdiv, ha]
    have hle1 : m / a ≤ 1 := (div_le_one ha').mpr hma
    have hv : m / a * 100 ≤ 100 := by linarith
    have hv0 : 0 ≤ m / a * 100 := by positivity
    refine ⟨rnd1 (rnd1 (m / a * 100)), ?_, ?_, ?_, fun hc => absurd hc ha⟩
    · simp [hdiv, pmul100, pround1, fillVal, sanitizeVal]
    · exact rnd1_nonneg _ (rnd1_nonneg _ hv0)
    · exact rnd1_le_100 _ (rnd1_le_100 _ hv)

theorem sumQ_nonneg (rows : List GameRow) (f : GameRow → ℚ)
    (h : ∀ r ∈ rows, 0 ≤ f r) : 0 ≤ sumQ rows f := by
  apply List.sum_nonneg
  intro x hx
  rw [List.mem_map] at hx
  obtain ⟨r, hr, hrx⟩ := hx
  rw [← hrx]
  exact h r hr

theorem sumQ_le_sumQ (rows : List GameRow) (f g : GameRow → ℚ)
    (h : ∀ r ∈ rows, f r ≤ g r) : sumQ rows f ≤ sumQ rows g :=
  List.sum_le_sum h

theorem sumQ_eq_zero_of_le (rows : List GameRow) (f g : GameRow → ℚ)
    (hf : ∀ r ∈ rows, 0 ≤ f r) (hfg : ∀ r ∈ rows, f r ≤ g r)
    (hg : sumQ rows g = 0) : sumQ rows f = 0 :=
  le_antisymm (hg ▸ sumQ_le_sumQ rows f g hfg) (sumQ_nonneg rows f hf)

theorem sanitizeVal_finite (v : PVal) : isFiniteV (sanitizeVal v) = true := by
  cases v <;> rfl

theorem sanitizeVal_shape (v : PVal) :
    (∃ s, sanitizeVal v = .str s) ∨ ∃ z : ℤ, sanitizeVal v = .num ((z:ℚ)/10) := by
  cases v with
  | num q => exact Or.inr ⟨rhe (q * 10), rfl⟩
  | str s => exact Or.inl ⟨s, rfl⟩
  | nan => exact Or.inr ⟨0, by norm_num [sanitizeVal]⟩
  | inf => exact Or.inr ⟨0, by norm_num [sanitizeVal]⟩
  | ninf => exact Or.inr ⟨0, by norm_num [sanitizeVal]⟩

/-! ### Date order and maximum lemmas -/

theorem dateLeB_iff (a b : Date) : dateLeB a b = true ↔
    (a.year < b.year ∨ (a.year = b.year ∧
      (a.month < b.month ∨ (a.month = b.month ∧ a.day ≤ b.day)))) := by
  unfold dateLeB
  split_ifs with h1 h2 h3 h4 <;> simp <;> omega

theorem dateLeB_refl (a : Date) : dateLeB a a = true := by
  rw [dateLeB_iff]
  omega

theorem dateLeB_total (a b : Date) : dateLeB a b = true ∨ dateLeB b a = true := by
  rw [dateLeB_iff, dateLeB_iff]
  omega

theorem dateLeB_trans (a b c : Date) (h1 : dateLeB a b = true) (h2 : dateLeB b c = true) :
    dateLeB a c = true := by
  rw [dateLeB_iff] at *
  omega

theorem dateLeB_left_dmax (a d : Date) : dateLeB a (dmax a d) = true := by
  unfold dmax
  split_ifs with h
  · exact h
  · exact dateLeB_refl a

theorem dateLeB_right_dmax (a d : Date) : dateLeB d (dmax a d) = true := by
  unfold dmax
  split_ifs with h
  · exact dateLeB_refl d
  · rcases dateLeB_total a d with h2 | h2
    · exact absurd h2 h
    · exact h2

theorem dmax_mem (a d : Date) : dmax a d = a ∨ dmax a d = d := by
  unfold dmax
  split_ifs
  · exact Or.inr rfl
  · exact Or.inl rfl

theorem foldl_dmax_spec (t : List GameRow) (a : Date) :
    dateLeB a (t.foldl (fun acc g => dmax acc g.gameDate) a) = true ∧
    (∀ r ∈ t, dateLeB r.gameDate (t.foldl (fun acc g => dmax acc g.gameDate) a) = true) ∧
    (t.foldl (fun acc g => dmax acc g.gameDate) a = a ∨
      t.foldl (fun acc g => dmax acc g.gameDate) a ∈ t.map (·.gameDate)) := by
  induction t generalizing a with
  | nil => exact ⟨dateLeB_refl a, by simp, Or.inl rfl⟩
  | cons g t ih =>
    obtain ⟨ih1, ih2, ih3⟩ := ih (dmax a g.gameDate)
    simp only [List.foldl_cons]
    refine ⟨dateLeB_trans _ _ _ (dateLeB_left_dmax a g.gameDate) ih1, ?_, ?_⟩
    · intro r hr
      rcases List.mem_cons.mp hr with hre | hre
      · rw [hre]
        exact dateLeB_trans _ _ _ (dateLeB_right_dmax a g.gameDate) ih1
      · exact ih2 r hre
    · rcases ih3 with hcase | hcase
      · rcases dmax_mem a g.gameDate with h2 | h2
        · exact Or.inl (hcase.trans h2)
        · refine Or.inr ?_
          rw [List.map_cons, hcase, h2]
          exact List.mem_cons_self _ _
      · refine Or.inr ?_
        rw [List.map_cons]
        exact List.mem_cons_of_mem _ hcase

theorem maxDate_spec (l : List GameRow) (hne : l ≠ []) :
    (∀ r ∈ l, dateLeB r.gameDate (maxDate l) = true) ∧
    maxDate l ∈ l.map (·.gameDate) := by
  cases l with
  | nil => exact absurd rfl hne
  | cons g t =>
    obtain ⟨h1, h2, h3⟩ := foldl_dmax_spec t g.gameDate
    show (∀ r ∈ g :: t, dateLeB r.gameDate
        (t.foldl (fun acc g => dmax acc g.gameDate) g.gameDate) = true) ∧
      t.foldl (fun acc g => dmax acc g.gameDate) g.gameDate ∈ (g :: t).map (·.gameDate)
    refine ⟨?_, ?_⟩
    · intro r hr
      rcases List.mem_cons.mp hr with hre | hre
      · rw [hre]
        exact h1
      · exact h2 r hre
    · rcases h3 with hcase | hcase
      · rw [List.map_cons, hcase]
        exact List.mem_cons_self _ _
      · rw [List.map_cons]
        exact List.mem_cons_of_mem _ hcase

theorem alookup_cur_final (stats : List GameRow) (q key : String)
    (bio : List (String × PVal)) (v : PVal)
    (d1 : key ≠ "Height") (d2 : key ≠ "Weight") (d3 : key ≠ "height") (d4 : key ≠ "bodyWeight")
    (hnr : key ∉ statColsP "Regular") (hnpo : key ∉ statColsP "Playoffs")
    (hnc : key ∉ statColsP "Career")
    (hq : q ∈ groupKeys (currentRows stats))
    (hv : alookup key (meanCells (rowsOf (currentRows stats) q)) = some v) :
    alookup key (renameCells (mainCells stats q ++ bio)) = some v := by
  apply alookup_final_cells stats q key bio v d1 d2 d3 d4
  rw [alookup_mainCells_current stats q key hnr hnpo hnc]
  unfold curCellsOf
  rw [if_pos hq]
  exact hv

/-! ### Percentage-cell helpers -/

theorem out_pct (q : String) (cells : List (String × PVal)) (key : String)
    (hkp : ¬ ("Player" = key)) (m a : ℚ) (hm : 0 ≤ m) (hma : m ≤ a)
    (hw : alookup key cells = some (fillVal (pround1 (pmul100 (qdiv m a)))) ∨
          (alookup key cells = some (.num 0) ∧ a = 0)) :
    ∃ x : ℚ, alookup key (("Player", PVal.str q) ::
        cells.map (fun kv => (kv.1, sanitizeVal kv.2))) = some (.num x) ∧
      0 ≤ x ∧ x ≤ 100 ∧ (a = 0 → x = 0) := by
  have hstep : alookup key (("Player", PVal.str q) ::
      cells.map (fun kv => (kv.1, sanitizeVal kv.2))) =
      (alookup key cells).map sanitizeVal := by
    simp only [alookup, if_neg hkp]
    exact alookup_map_val key sanitizeVal cells
  rcases hw with hw | ⟨hw, ha0⟩
  · obtain ⟨x, hx, h0, h100, hz⟩ := sanitize_pct_bound m a hm hma
    refine ⟨x, ?_, h0, h100, hz⟩
    rw [hstep, hw]
    exact congrArg some hx
  · refine ⟨0, ?_, le_refl 0, by norm_num, fun _ => rfl⟩
    rw [hstep, hw]
    have hz : sanitizeVal (.num 0) = .num 0 := by
      simp [sanitizeVal, rnd1_zero]
    exact congrArg some hz

theorem pct_disjunct (stats : List GameRow) (q : String) (bio : List (String × PVal))
    (sub : List GameRow) (pre key : String) (fm fa : GameRow → ℚ)
    (d1 : key ≠ "Height") (d2 : key ≠ "Weight") (d3 : key ≠ "height") (d4 : key ≠ "bodyWeight")
    (hkmem : key ∈ statColsP pre)
    (hseg : alookup key (mainCells stats q) =
      (alookup key (partCells pre sub q)).map fillVal)
    (hpos : q ∈ groupKeys sub → alookup key (statCells pre (rowsOf sub q)) =
      some (pround1 (pmul100 (qdiv (sumQ (rowsOf sub q) fm) (sumQ (rowsOf sub q) fa))))) :
    alookup key (renameCells (mainCells stats q ++ bio)) =
        some (fillVal (pround1 (pmul100
          (qdiv (sumQ (rowsOf sub q) fm) (sumQ (rowsOf sub q) fa))))) ∨
      (alookup key (renameCells (mainCells stats q ++ bio)) = some (.num 0) ∧
        sumQ (rowsOf sub q) fa = 0) := by
  by_cases hq : q ∈ groupKeys sub
  · left
    apply alookup_final_cells stats q key bio _ d1 d2 d3 d4
    rw [hseg]
    unfold partCells
    rw [if_pos hq, hpos hq]
    rfl
  · right
    constructor
    · apply alookup_final_cells stats q key bio _ d1 d2 d3 d4
      rw [hseg]
      unfold partCells
      rw [if_neg hq, alookup_nanFillCells _ _ hkmem]
      rfl
    · have hnil : rowsOf sub q = [] := by
        by_contra hne
        exact hq ((mem_groupKeys_iff _ _).mpr hne)
      rw [hnil]
      rfl

theorem pct_final (stats : List GameRow) (q : String) (bio : List (String × PVal))
    (sub : List GameRow) (pre key : String) (fm fa : GameRow → ℚ)
    (d1 : key ≠ "Height") (d2 : key ≠ "Weight") (d3 : key ≠ "height") (d4 : key ≠ "bodyWeight")
    (dp : ¬ ("Player" = key))
    (hkmem : key ∈ statColsP pre)
    (hseg : alookup key (mainCells stats q) =
      (alookup key (partCells pre sub q)).map fillVal)
    (hpos : q ∈ groupKeys sub → alookup key (statCells pre (rowsOf sub q)) =
      some (pround1 (pmul100 (qdiv (sumQ (rowsOf sub q) fm) (sumQ (rowsOf sub q) fa)))))
    (hm : 0 ≤ sumQ (rowsOf sub q) fm)
    (hma : sumQ (rowsOf sub q) fm ≤ sumQ (rowsOf sub q) fa) :
    ∃ x : ℚ, alookup key (("Player", PVal.str q) ::
        (renameCells (mainCells stats q ++ bio)).map (fun kv => (kv.1, sanitizeVal kv.2)))
      = some (.num x) ∧ 0 ≤ x ∧ x ≤ 100 ∧ (sumQ (rowsOf sub q) fa = 0 → x = 0) :=
  out_pct q (renameCells (mainCells stats q ++ bio)) key dp _ _ hm hma
    (pct_disjunct stats q bio sub pre key fm fa d1 d2 d3 d4 hkmem hseg hpos)

theorem mem_stats_of_regular (stats : List GameRow) (q : String) (r : GameRow)
    (hr : r ∈ rowsOf (regularRows stats) q) : r ∈ stats :=
  List.mem_of_mem_filter (List.mem_of_mem_filter (List.mem_of_mem_filter hr))

theorem mem_stats_of_playoffs (stats : List GameRow) (q : String) (r : GameRow)
    (hr : r ∈ rowsOf (playoffRows stats) q) : r ∈ stats :=
  List.mem_of_mem_filter (List.mem_of_mem_filter (List.mem_of_mem_filter hr))

theorem mem_stats_of_nonPre (stats : List GameRow) (q : String) (r : GameRow)
    (hr : r ∈ rowsOf (nonPreRows stats) q) : r ∈ stats :=
  List.mem_of_mem_filter (List.mem_of_mem_filter hr)

/-! ### Claims -/

/-- C9: the Aggregation Engine is idempotent and deterministic — two runs
of `_process_data` on identical raw game-row and player-row inputs produce
the identical output (the same `PlayerAggregate` frame and the same sorted
player-name list). -/
theorem c9_aggregation_deterministic (s1 s2 : List GameRow) (p1 p2 : List PlayerRow)
    (hs : s1 = s2) (hp : p1 = p2) : processData s1 p1 = processData s2 p2 := by
  rw [hs, hp]

theorem c9_witness :
    wRowsAB = wRowsAB ∧ [onePR] = [onePR] ∧
    processData wRowsAB [onePR] = processData wRowsAB [onePR] :=
  ⟨rfl, rfl, c9_aggregation_deterministic wRowsAB wRowsAB [onePR] [onePR] rfl rfl⟩

/-- C10: on an input where player `A B` has only preseason games, `A B`
shows up in the sorted list `get_all_players` serves (the list is computed
before preseason exclusion), yet `get_player_stats` for that exact name
returns `None`, because `A B` has no row in any aggregated subset. -/
theorem c10_preseason_player_listed_but_absent :
    (getAllPlayers initState 0 0 (.ok wRowsPre [])).1 = ["A B", "C D"] ∧
    (getPlayerStatsOp initState 0 0 (.ok wRowsPre []) "A B").1 = none ∧
    (getPlayerStatsOp initState 0 0 (.ok wRowsPre []) "C D").1.isSome = true := by
  exact ⟨by decide, by decide, by decide⟩

/-- C6 counterexample: the code's normalization removes only the space
character, not all whitespace.  With stored name `LeBron James` the
spec-mandated all-whitespace normalization resolves the input
`LeBron\tJames` (with a tab), while the code's resolution does not. -/
theorem c6_counterexample :
    resolveFirstSpecWS ["LeBron James"] "LeBron\tJames" = some "LeBron James" ∧
    resolveFirst ["LeBron James"] "LeBron\tJames" = none := by
  exact ⟨by decide, by decide⟩

/-- C6 (amended): resolution normalizes by removing all **space characters
(U+0020)** — not all whitespace — and lowercasing both the input and each
stored name, returning the first stored name whose normalization matches
exactly; consequently, with a stored `LeBron James` (and no earlier stored
name normalizing to `lebronjames`), the inputs `LeBron James`,
`lebron james` and `LeBronJames` all resolve to that stored identity. -/
theorem c6_resolution_amended (l1 l2 : List String)
    (h : ∀ x ∈ l1, normalize_player_name x ≠ "lebronjames") :
    resolveFirst (l1 ++ "LeBron James" :: l2) "LeBron James" = some "LeBron James" ∧
    resolveFirst (l1 ++ "LeBron James" :: l2) "lebron james" = some "LeBron James" ∧
    resolveFirst (l1 ++ "LeBron James" :: l2) "LeBronJames" = some "LeBron James" := by
  have key : ∀ n : String, normalize_player_name n = "lebronjames" →
      resolveFirst (l1 ++ "LeBron James" :: l2) n = some "LeBron James" := by
    intro n hn
    unfold resolveFirst
    rw [List.find?_append]
    have h1 : l1.find? (fun p => normalize_player_name p == normalize_player_name n) = none := by
      rw [List.find?_eq_none]
      intro x hx
      rw [hn]
      simpa using h x hx
    rw [h1]
    have h2 : (normalize_player_name "LeBron James" == normalize_player_name n) = true := by
      rw [hn]
      decide
    simp [List.find?, h2]
  exact ⟨key _ (by decide), key _ (by decide), key _ (by decide)⟩

theorem c6_witness :
    (∀ x ∈ ["Kevin Durant"], normalize_player_name x ≠ "lebronjames") ∧
    (resolveFirst (["Kevin Durant"] ++ "LeBron James" :: ["Stephen Curry"]) "LeBron James"
        = some "LeBron James" ∧
      resolveFirst (["Kevin Durant"] ++ "LeBron James" :: ["Stephen Curry"]) "lebron james"
        = some "LeBron James" ∧
      resolveFirst (["Kevin Durant"] ++ "LeBron James" :: ["Stephen Curry"]) "LeBronJames"
        = some "LeBron James") :=
  ⟨by decide, c6_resolution_amended ["Kevin Durant"] ["Stephen Curry"] (by decide)⟩

/-- C2 counterexample: from a populated stale state a failing fetch makes
`get_all_players` return the **ordinary value `[]`** — the `except` clause
swallows the error instead of propagating it (the definition following the
spec's words returns an error for the same state), and the retained
player-name list is not even served. -/
theorem c2_counterexample :
    getAllPlayers cexState 7200 7200 .err = ([], cexState, true) ∧
    getSnapshotSpec cexState 7200 7200 .err = (.error .fetchFailed, cexState) ∧
    cexState.playerNames = some ["LeBron James"] := by
  exact ⟨by decide, by decide, rfl⟩

/-- C2 (amended): if the fetch step fails during a stale refresh the whole
fetcher state is preserved; if the aggregation step fails the aggregate
cache and the fetch time are preserved — no partial aggregate snapshot is
ever installed — but the stored player-name list has already been replaced
with the new download's names; in both cases the error is caught rather
than propagated: `get_all_players` returns `[]` and `get_player_stats`
returns `None`. -/
theorem c2_refresh_failure_amended (st : FetcherState) (t1 t2 : ℚ)
    (fo : FetchOutcome) (name : String)
    (hstale : staleCheck st t1 = true)
    (hfail : fo = .err ∨ ∃ s p, fo = .ok s p ∧ ∃ e, (processData s p).2 = .error e) :
    (getAllPlayers st t1 t2 fo).1 = [] ∧
    (getAllPlayers st t1 t2 fo).2.1.cache = st.cache ∧
    (getAllPlayers st t1 t2 fo).2.1.lastFetch = st.lastFetch ∧
    (getPlayerStatsOp st t1 t2 fo name).1 = none ∧
    (getPlayerStatsOp st t1 t2 fo name).2.1.cache = st.cache ∧
    (getPlayerStatsOp st t1 t2 fo name).2.1.lastFetch = st.lastFetch ∧
    (getAllPlayers st t1 t2 fo).2.1.playerNames =
      (match fo with
       | .err => st.playerNames
       | .ok s _ => some (dedupSort (s.map mkPlayerName))) := by
  rcases hfail with hfo | ⟨s, p, hfo, e, he⟩
  · subst hfo
    simp [getAllPlayers, getPlayerStatsOp, fetchDataM, hstale]
  · subst hfo
    have hpd : processData s p = (dedupSort (s.map mkPlayerName), (processData s p).2) := rfl
    rw [he] at hpd
    simp [getAllPlayers, getPlayerStatsOp, fetchDataM, hstale, hpd]

theorem c2_witness :
    staleCheck cexState 7200 = true ∧
    ((getAllPlayers cexState 7200 7200 .err).1 = [] ∧
      (getAllPlayers cexState 7200 7200 .err).2.1.cache = cexState.cache ∧
      (getAllPlayers cexState 7200 7200 .err).2.1.lastFetch = cexState.lastFetch ∧
      (getPlayerStatsOp cexState 7200 7200 .err "LeBron James").1 = none ∧
      (getPlayerStatsOp cexState 7200 7200 .err "LeBron James").2.1.cache = cexState.cache ∧
      (getPlayerStatsOp cexState 7200 7200 .err "LeBron James").2.1.lastFetch
        = cexState.lastFetch ∧
      (getAllPlayers cexState 7200 7200 .err).2.1.playerNames =
        (match (.err : FetchOutcome) with
         | .err => cexState.playerNames
         | .ok s _ => some (dedupSort (s.map mkPlayerName)))) :=
  ⟨by decide,
    c2_refresh_failure_amended cexState 7200 7200 .err "LeBron James" (by decide) (Or.inl rfl)⟩

/-- C4: after a first call populates the cache, a second call whose
staleness check happens within the freshness window performs no fetch at
all (for any outcome the source would have had), leaves the state
untouched, and serves the existing snapshot: `get_all_players` returns the
same list and `get_player_stats` reads the cached frame. -/
theorem c4_single_fetch_within_window (t0 t1 t2 t3 : ℚ) (fo fo2 : FetchOutcome)
    (name : String) (r1 : List String) (st1 : FetcherState) (b1 : Bool)
    (h1 : getAllPlayers initState t0 t1 fo = (r1, st1, b1))
    (hpop : st1.cache.isSome = true)
    (hfresh : t2 - t1 ≤ cacheDuration) :
    b1 = true ∧
    getAllPlayers st1 t2 t3 fo2 = (r1, st1, false) ∧
    (getPlayerStatsOp st1 t2 t3 fo2 name).2 = (st1, false) ∧
    (∀ c, st1.cache = some c → (getPlayerStatsOp st1 t2 t3 fo2 name).1 = lookupStats c name) := by
  have hstale0 : staleCheck initState t0 = true := rfl
  rcases fo with ⟨s, p⟩ | _
  · cases hres : (processData s p).2 with
    | error err =>
      exfalso
      have hpd : processData s p = (dedupSort (s.map mkPlayerName), Except.error err) := by
        have h0 : processData s p = (dedupSort (s.map mkPlayerName), (processData s p).2) := rfl
        rw [hres] at h0
        exact h0
      have hcall : getAllPlayers initState t0 t1 (.ok s p) = ([],
          { initState with playerNames := some (dedupSort (s.map mkPlayerName)) }, true) := by
        simp [getAllPlayers, fetchDataM, hstale0, hpd]
      rw [h1, Prod.mk.injEq, Prod.mk.injEq] at hcall
      obtain ⟨-, hst1, -⟩ := hcall
      rw [hst1] at hpop
      simp [initState] at hpop
    | ok f =>
      have hpd : processData s p = (dedupSort (s.map mkPlayerName), Except.ok f) := by
        have h0 : processData s p = (dedupSort (s.map mkPlayerName), (processData s p).2) := rfl
        rw [hres] at h0
        exact h0
      have hcall : getAllPlayers initState t0 t1 (.ok s p) =
          (dedupSort (s.map mkPlayerName),
           ⟨some f, some t1, some (dedupSort (s.map mkPlayerName))⟩, true) := by
        simp [getAllPlayers, fetchDataM, staleCheck, hpd, initState]
      rw [h1, Prod.mk.injEq, Prod.mk.injEq] at hcall
      obtain ⟨hr1, hst1, hb1⟩ := hcall
      have hnstale : staleCheck st1 t2 = false := by
        rw [hst1]
        simp only [staleCheck]
        exact decide_eq_false (not_lt.mpr (by linarith))
      refine ⟨hb1, ?_, ?_, ?_⟩
      · rw [getAllPlayers, if_neg (by rw [hnstale]; exact Bool.false_ne_true)]
        rw [hst1, hr1]
        rfl
      · rw [getPlayerStatsOp, if_neg (by rw [hnstale]; exact Bool.false_ne_true)]
        rw [hst1]
      · intro c hc
        rw [getPlayerStatsOp, if_neg (by rw [hnstale]; exact Bool.false_ne_true)]
        rw [hst1]
        rw [hst1] at hc
        simp only [Option.some.injEq] at hc
        rw [← hc]
  · exfalso
    have hcall : getAllPlayers initState t0 t1 .err = ([], initState, true) := by
      simp [getAllPlayers, fetchDataM, hstale0]
    rw [h1, Prod.mk.injEq, Prod.mk.injEq] at hcall
    obtain ⟨-, hst1, -⟩ := hcall
    rw [hst1] at hpop
    simp [initState] at hpop

theorem c4_witness :
    getAllPlayers initState 0 0 (.ok wRowsAB []) =
      ((getAllPlayers initState 0 0 (.ok wRowsAB [])).1,
       (getAllPlayers initState 0 0 (.ok wRowsAB [])).2.1,
       (getAllPlayers initState 0 0 (.ok wRowsAB [])).2.2) ∧
    ((getAllPlayers initState 0 0 (.ok wRowsAB [])).2.1.cache.isSome = true) ∧
    ((1800:ℚ) - 0 ≤ cacheDuration) ∧
    ((getAllPlayers initState 0 0 (.ok wRowsAB [])).2.2 = true ∧
      getAllPlayers (getAllPlayers initState 0 0 (.ok wRowsAB [])).2.1 1800 1800 .err =
        ((getAllPlayers initState 0 0 (.ok wRowsAB [])).1,
         (getAllPlayers initState 0 0 (.ok wRowsAB [])).2.1, false) ∧
      (getPlayerStatsOp (getAllPlayers initState 0 0 (.ok wRowsAB [])).2.1 1800 1800 .err "A B").2 =
        ((getAllPlayers initState 0 0 (.ok wRowsAB [])).2.1, false) ∧
      (∀ c, (getAllPlayers initState 0 0 (.ok wRowsAB [])).2.1.cache = some c →
        (getPlayerStatsOp (getAllPlayers initState 0 0 (.ok wRowsAB [])).2.1
          1800 1800 .err "A B").1 = lookupStats c "A B")) :=
  ⟨rfl, by decide, by norm_num [cacheDuration],
    c4_single_fetch_within_window 0 0 1800 1800 (.ok wRowsAB []) .err "A B"
      (getAllPlayers initState 0 0 (.ok wRowsAB [])).1
      (getAllPlayers initState 0 0 (.ok wRowsAB [])).2.1
      (getAllPlayers initState 0 0 (.ok wRowsAB [])).2.2
      rfl (by decide) (by norm_num [cacheDuration])⟩

/-- C8: the `/compare` operation resolves both names against the served
player list and returns an absent result if either resolution fails or —
after both names resolve — either stats lookup comes back `None` (or a
falsy empty dict), even when the other side would succeed; when both
sides produce a (non-empty) sanitized aggregate, it returns the two
aggregates keyed by position, first then second. -/
theorem c8_comparison_endpoint (st : FetcherState) (tc ts : ℚ) (fo fo1 fo2 : FetchOutcome)
    (n1 n2 : String) :
    ((resolveLast (getAllPlayers st tc ts fo).1 n1 = none ∨
      resolveLast (getAllPlayers st tc ts fo).1 n2 = none) →
      (compareEndpoint st tc ts fo fo1 fo2 n1 n2).1 = none) ∧
    (∀ m1 m2 c1 c2,
      resolveLast (getAllPlayers st tc ts fo).1 n1 = some m1 →
      resolveLast (getAllPlayers st tc ts fo).1 n2 = some m2 →
      (getPlayerStatsOp (getAllPlayers st tc ts fo).2.1 tc ts fo1 m1).1 = some c1 →
      c1 ≠ [] →
      (getPlayerStatsOp (getPlayerStatsOp (getAllPlayers st tc ts fo).2.1 tc ts fo1 m1).2.1
        tc ts fo2 m2).1 = some c2 →
      c2 ≠ [] →
      (compareEndpoint st tc ts fo fo1 fo2 n1 n2).1 = some (c1, c2)) ∧
    (∀ m1 m2,
      resolveLast (getAllPlayers st tc ts fo).1 n1 = some m1 →
      resolveLast (getAllPlayers st tc ts fo).1 n2 = some m2 →
      ((getPlayerStatsOp (getAllPlayers st tc ts fo).2.1 tc ts fo1 m1).1 = none ∨
       (getPlayerStatsOp (getAllPlayers st tc ts fo).2.1 tc ts fo1 m1).1 = some [] ∨
       (getPlayerStatsOp (getPlayerStatsOp (getAllPlayers st tc ts fo).2.1 tc ts fo1 m1).2.1
          tc ts fo2 m2).1 = none ∨
       (getPlayerStatsOp (getPlayerStatsOp (getAllPlayers st tc ts fo).2.1 tc ts fo1 m1).2.1
          tc ts fo2 m2).1 = some []) →
      (compareEndpoint st tc ts fo fo1 fo2 n1 n2).1 = none) := by
  refine ⟨?_, ?_, ?_⟩
  · intro hfails
    rcases h1 : resolveLast (getAllPlayers st tc ts fo).1 n1 with _ | m1
    · simp [compareEndpoint, h1]
    · rcases h2 : resolveLast (getAllPlayers st tc ts fo).1 n2 with _ | m2
      · simp [compareEndpoint, h1, h2]
      · rcases hfails with hf | hf
        · rw [h1] at hf; cases hf
        · rw [h2] at hf; cases hf
  · intro m1 m2 c1 c2 hm1 hm2 hc1 hne1 hc2 hne2
    have he1 : c1.isEmpty = false := by
      cases c1
      · exact absurd rfl hne1
      · rfl
    have he2 : c2.isEmpty = false := by
      cases c2
      · exact absurd rfl hne2
      · rfl
    simp [compareEndpoint, getComparisonStats, hm1, hm2, hc1, hc2, he1, he2]
  · intro m1 m2 hm1 hm2 hfail
    rcases hfail with h1 | h1 | h1 | h1
    · rcases h2 : (getPlayerStatsOp (getPlayerStatsOp (getAllPlayers st tc ts fo).2.1
          tc ts fo1 m1).2.1 tc ts fo2 m2).1 with _ | c2 <;>
        simp [compareEndpoint, getComparisonStats, hm1, hm2, h1, h2]
    · rcases h2 : (getPlayerStatsOp (getPlayerStatsOp (getAllPlayers st tc ts fo).2.1
          tc ts fo1 m1).2.1 tc ts fo2 m2).1 with _ | c2 <;>
        simp [compareEndpoint, getComparisonStats, hm1, hm2, h1, h2]
    · rcases h2 : (getPlayerStatsOp (getAllPlayers st tc ts fo).2.1 tc ts fo1 m1).1
          with _ | c1 <;>
        simp [compareEndpoint, getComparisonStats, hm1, hm2, h1, h2]
    · rcases h2 : (getPlayerStatsOp (getAllPlayers st tc ts fo).2.1 tc ts fo1 m1).1
          with _ | c1 <;>
        simp [compareEndpoint, getComparisonStats, hm1, hm2, h1, h2]

theorem c8_witness :
    (resolveLast (getAllPlayers initState 0 0 (.ok wRowsTwo [])).1 "Nonexistent Player" = none ∧
     resolveLast (getAllPlayers initState 0 0 (.ok wRowsTwo [])).1 "LeBron James" = none ∧
     resolveLast (getAllPlayers initState 0 0 (.ok wRowsTwo [])).1 "a b" = some "A B" ∧
     resolveLast (getAllPlayers initState 0 0 (.ok wRowsTwo [])).1 "C d" = some "C D") ∧
    (compareEndpoint initState 0 0 (.ok wRowsTwo []) .err .err "a b" "Nonexistent Player").1
      = none ∧
    (compareEndpoint initState 0 0 (.ok wRowsTwo []) .err .err "a b" "C d").1 =
      some ((getPlayerStatsOp (getAllPlayers initState 0 0 (.ok wRowsTwo [])).2.1
               0 0 .err "A B").1.getD [],
            (getPlayerStatsOp (getPlayerStatsOp (getAllPlayers initState 0 0
                (.ok wRowsTwo [])).2.1 0 0 .err "A B").2.1 0 0 .err "C D").1.getD []) ∧
    (resolveLast (getAllPlayers initState 0 0 (.ok wRowsPre [])).1 "a b" = some "A B" ∧
     resolveLast (getAllPlayers initState 0 0 (.ok wRowsPre [])).1 "C D" = some "C D" ∧
     (getPlayerStatsOp (getAllPlayers initState 0 0 (.ok wRowsPre [])).2.1
        0 0 .err "A B").1 = none ∧
     (compareEndpoint initState 0 0 (.ok wRowsPre []) .err .err "a b" "C D").1 = none) :=
  ⟨⟨by decide, by decide, by decide, by decide⟩,
   (c8_comparison_endpoint initState 0 0 (.ok wRowsTwo []) .err .err "a b"
      "Nonexistent Player").1 (Or.inr (by decide)),
   (c8_comparison_endpoint initState 0 0 (.ok wRowsTwo []) .err .err "a b" "C d").2.1
      "A B" "C D" _ _ (by decide) (by decide) (by decide) (by decide) (by decide) (by decide),
   by decide, by decide, by decide,
   (c8_comparison_endpoint initState 0 0 (.ok wRowsPre []) .err .err "a b" "C D").2.2
      "A B" "C D" (by decide) (by decide) (Or.inl (by decide))⟩

/-- C7: in every row of a successful aggregation, the Career games-played
count is at least the maximum of the Regular and the Playoffs games-played
counts. -/
theorem c7_career_games_ge (stats : List GameRow) (players : List PlayerRow)
    (F : Frame) (row : FRow)
    (h : (processData stats players).2 = .ok F) (hrow : row ∈ F.rows) :
    ∃ c r p : ℚ,
      alookup "Career_Games" row.cells = some (.num c) ∧
      alookup "Regular_Games" row.cells = some (.num r) ∧
      alookup "Playoffs_Games" row.cells = some (.num p) ∧
      max r p ≤ c := by
  obtain ⟨q, hq, hqp, hbio⟩ := mem_processData_rows stats players F row h hrow
  have hcells : ∃ bio, row.cells = renameCells (mainCells stats q ++ bio) := by
    rcases hbio with h1 | ⟨pr, _, _, h1⟩
    · exact ⟨_, h1⟩
    · exact ⟨_, h1⟩
  obtain ⟨bio, hcells⟩ := hcells
  have lift : ∀ (k : String) (v : PVal), k ≠ "Height" → k ≠ "Weight" → k ≠ "height" →
      k ≠ "bodyWeight" → alookup k (mainCells stats q) = some v →
      alookup k row.cells = some v := by
    intro k v h1 h2 h3 h4 hv
    rw [hcells]
    exact alookup_final_cells stats q k bio v h1 h2 h3 h4 hv
  have hregsub : (rowsOf (regularRows stats) q).length ≤ (rowsOf (nonPreRows stats) q).length := by
    rw [show regularRows stats = (nonPreRows stats).filter
      (fun r => containsCI r.gameType "Regular Season" ||
        containsCI r.gameType "NBA Emirates Cup") from rfl, rowsOf_filter]
    exact List.length_filter_le _ _
  have hposub : (rowsOf (playoffRows stats) q).length ≤ (rowsOf (nonPreRows stats) q).length := by
    rw [show playoffRows stats = (nonPreRows stats).filter
      (fun r => containsCI r.gameType "Playoffs" ||
        containsCI r.gameType "Play-in Tournament") from rfl, rowsOf_filter]
    exact List.length_filter_le _ _
  by_cases hqc : q ∈ groupKeys (nonPreRows stats)
  · have hC : alookup "Career_Games" (mainCells stats q) =
        some (.num ((rowsOf (nonPreRows stats) q).length : ℚ)) := by
      rw [alookup_mainCells_career stats q _ (by decide) (by decide) (by decide)]
      unfold partCells
      rw [if_pos hqc]
      rfl
    have hR : ∃ r : ℚ, alookup "Regular_Games" (mainCells stats q) = some (.num r) ∧
        r ≤ ((rowsOf (nonPreRows stats) q).length : ℚ) := by
      by_cases hqr : q ∈ groupKeys (regularRows stats)
      · refine ⟨((rowsOf (regularRows stats) q).length : ℚ), ?_, ?_⟩
        · rw [alookup_mainCells_regular stats q _ (by decide)]
          unfold partCells
          rw [if_pos hqr]
          rfl
        · exact_mod_cast hregsub
      · refine ⟨0, ?_, by positivity⟩
        rw [alookup_mainCells_regular stats q _ (by decide)]
        unfold partCells
        rw [if_neg hqr, alookup_nanFillCells _ _ (by decide)]
        rfl
    have hP : ∃ p : ℚ, alookup "Playoffs_Games" (mainCells stats q) = some (.num p) ∧
        p ≤ ((rowsOf (nonPreRows stats) q).length : ℚ) := by
      by_cases hqpo : q ∈ groupKeys (playoffRows stats)
      · refine ⟨((rowsOf (playoffRows stats) q).length : ℚ), ?_, ?_⟩
        · rw [alookup_mainCells_playoffs stats q _ (by decide) (by decide)]
          unfold partCells
          rw [if_pos hqpo]
          rfl
        · exact_mod_cast hposub
      · refine ⟨0, ?_, by positivity⟩
        rw [alookup_mainCells_playoffs stats q _ (by decide) (by decide)]
        unfold partCells
        rw [if_neg hqpo, alookup_nanFillCells _ _ (by decide)]
        rfl
    obtain ⟨r, hr, hrle⟩ := hR
    obtain ⟨p, hp, hple⟩ := hP
    exact ⟨((rowsOf (nonPreRows stats) q).length : ℚ), r, p,
      lift _ _ (by decide) (by decide) (by decide) (by decide) hC,
      lift _ _ (by decide) (by decide) (by decide) (by decide) hr,
      lift _ _ (by decide) (by decide) (by decide) (by decide) hp,
      max_le hrle hple⟩
  · have hnonil : rowsOf (nonPreRows stats) q = [] := by
      by_contra hne
      exact hqc ((mem_groupKeys_iff _ _).mpr hne)
    have hqr : q ∉ groupKeys (regularRows stats) := by
      rw [mem_groupKeys_iff]
      intro hne
      apply hne
      rw [show regularRows stats = (nonPreRows stats).filter
        (fun r => containsCI r.gameType "Regular Season" ||
          containsCI r.gameType "NBA Emirates Cup") from rfl, rowsOf_filter, hnonil]
      rfl
    have hqpo : q ∉ groupKeys (playoffRows stats) := by
      rw [mem_groupKeys_iff]
      intro hne
      apply hne
      rw [show playoffRows stats = (nonPreRows stats).filter
        (fun r => containsCI r.gameType "Playoffs" ||
          containsCI r.gameType "Play-in Tournament") from rfl, rowsOf_filter, hnonil]
      rfl
    have hC : alookup "Career_Games" (mainCells stats q) = some (.num 0) := by
      rw [alookup_mainCells_career stats q _ (by decide) (by decide) (by decide)]
      unfold partCells
      rw [if_neg hqc, alookup_nanFillCells _ _ (by decide)]
      rfl
    have hR : alookup "Regular_Games" (mainCells stats q) = some (.num 0) := by
      rw [alookup_mainCells_regular stats q _ (by decide)]
      unfold partCells
      rw [if_neg hqr, alookup_nanFillCells _ _ (by decide)]
      rfl
    have hP : alookup "Playoffs_Games" (mainCells stats q) = some (.num 0) := by
      rw [alookup_mainCells_playoffs stats q _ (by decide) (by decide)]
      unfold partCells
      rw [if_neg hqpo, alookup_nanFillCells _ _ (by decide)]
      rfl
    exact ⟨0, 0, 0,
      lift _ _ (by decide) (by decide) (by decide) (by decide) hC,
      lift _ _ (by decide) (by decide) (by decide) (by decide) hR,
      lift _ _ (by decide) (by decide) (by decide) (by decide) hP,
      by norm_num⟩

theorem c7_witness :
    (processData wRowsTwo [onePR]).2 =
      .ok ((processData wRowsTwo [onePR]).2.toOption.getD cexFrame) ∧
    ((processData wRowsTwo [onePR]).2.toOption.getD cexFrame).rows.getD 0 ⟨"", []⟩ ∈
      ((processData wRowsTwo [onePR]).2.toOption.getD cexFrame).rows ∧
    (∃ c r p : ℚ,
      alookup "Career_Games"
        (((processData wRowsTwo [onePR]).2.toOption.getD cexFrame).rows.getD 0 ⟨"", []⟩).cells
        = some (.num c) ∧
      alookup "Regular_Games"
        (((processData wRowsTwo [onePR]).2.toOption.getD cexFrame).rows.getD 0 ⟨"", []⟩).cells
        = some (.num r) ∧
      alookup "Playoffs_Games"
        (((processData wRowsTwo [onePR]).2.toOption.getD cexFrame).rows.getD 0 ⟨"", []⟩).cells
        = some (.num p) ∧
      max r p ≤ c) :=
  ⟨by decide, by decide,
    c7_career_games_ge wRowsTwo [onePR]
      ((processData wRowsTwo [onePR]).2.toOption.getD cexFrame)
      (((processData wRowsTwo [onePR]).2.toOption.getD cexFrame).rows.getD 0 ⟨"", []⟩)
      (by decide) (by decide)⟩

/-- C1 counterexample: with two identical rows in the player-info table,
the final left-join duplicates the aggregate row, so player `A B` — who
appears in the regular-season subset — appears **twice** in the output,
refuting "appears exactly once". -/
theorem c1_counterexample :
    ((processData wRowsAB [onePR, onePR]).2.toOption.map
      (fun f => (f.rows.map (·.player)).count "A B")) = some 2 ∧
    "A B" ∈ groupKeys (regularRows wRowsAB) := by
  exact ⟨by decide, by decide⟩

/-- C1 (amended): provided the regular-season and playoff subsets are both
non-empty (otherwise the merge of an empty, column-less frame fails with a
`KeyError`) and the player-info table has no duplicate concatenated names,
the aggregation succeeds, every player appearing in any of the three
subsets appears exactly once in the output, and every numeric cell of a
subset the player has no rows in is filled with zero. -/
theorem c1_unique_players_amended (stats : List GameRow) (players : List PlayerRow)
    (hr : regularRows stats ≠ []) (hp : playoffRows stats ≠ [])
    (hnd : (players.map mkPRName).Nodup) :
    ∃ F, (processData stats players).2 = .ok F ∧
      (∀ q, (q ∈ groupKeys (regularRows stats) ∨ q ∈ groupKeys (playoffRows stats) ∨
             q ∈ groupKeys (nonPreRows stats)) →
        (F.rows.map (·.player)).count q = 1) ∧
      (∀ row ∈ F.rows,
        (row.player ∉ groupKeys (regularRows stats) →
          ∀ k ∈ statColsP "Regular", alookup k row.cells = some (.num 0)) ∧
        (row.player ∉ groupKeys (playoffRows stats) →
          ∀ k ∈ statColsP "Playoffs", alookup k row.cells = some (.num 0)) ∧
        (row.player ∉ groupKeys (nonPreRows stats) →
          ∀ k ∈ statColsP "Career", alookup k row.cells = some (.num 0))) := by
  obtain ⟨F, hF, hrows⟩ := processData_rows_eq stats players hr hp
  have hpf_names : (playersFrame players).rows.map (·.player) = players.map mkPRName := by
    rw [playersFrame, List.map_map]
    rfl
  have hmap : F.rows.map (·.player) = outKeys stats := by
    rw [hrows]
    apply map_player_flatMap_key
    intro q _
    have hlen : ((playersFrame players).rows.filter (fun r => r.player = q)).length ≤ 1 := by
      rw [length_filter_player_eq_count, hpf_names]
      exact List.nodup_iff_count_le_one.mp hnd q
    rcases hfil : (playersFrame players).rows.filter (fun r => r.player = q)
      with _ | ⟨rb0, bs'⟩
    · exact ⟨_, by rw [hfil], rfl⟩
    · cases bs' with
      | nil => exact ⟨_, by rw [hfil]; rfl, rfl⟩
      | cons x xs =>
        rw [hfil] at hlen
        simp at hlen
  refine ⟨F, hF, ?_, ?_⟩
  · intro q hqmem
    rw [hmap]
    unfold outKeys
    apply count_dedupSort_of_mem
    rcases hqmem with h1 | h2 | h3
    · exact List.mem_append.mpr
        (Or.inl ((mem_dedupSort _ _).mpr (List.mem_append.mpr (Or.inl h1))))
    · exact List.mem_append.mpr
        (Or.inl ((mem_dedupSort _ _).mpr (List.mem_append.mpr (Or.inr h2))))
    · exact List.mem_append.mpr (Or.inr h3)
  · intro row hrowmem
    obtain ⟨q, hq, hqp, hbio⟩ := mem_processData_rows stats players F row hF hrowmem
    have hcells : ∃ bio, row.cells = renameCells (mainCells stats q ++ bio) := by
      rcases hbio with h1 | ⟨pr, _, _, h1⟩
      · exact ⟨_, h1⟩
      · exact ⟨_, h1⟩
    obtain ⟨bio, hcells⟩ := hcells
    have hall_reg : ∀ k ∈ statColsP "Regular",
        k ≠ "Height" ∧ k ≠ "Weight" ∧ k ≠ "height" ∧ k ≠ "bodyWeight" := by decide
    have hall_po : ∀ k ∈ statColsP "Playoffs",
        k ≠ "Height" ∧ k ≠ "Weight" ∧ k ≠ "height" ∧ k ≠ "bodyWeight" := by decide
    have hall_car : ∀ k ∈ statColsP "Career",
        k ≠ "Height" ∧ k ≠ "Weight" ∧ k ≠ "height" ∧ k ≠ "bodyWeight" := by decide
    have hpo_nr : ∀ k ∈ statColsP "Playoffs", k ∉ statColsP "Regular" := by decide
    have hcar_nr : ∀ k ∈ statColsP "Career", k ∉ statColsP "Regular" := by decide
    have hcar_npo : ∀ k ∈ statColsP "Career", k ∉ statColsP "Playoffs" := by decide
    refine ⟨?_, ?_, ?_⟩
    · intro hnr k hk
      rw [hqp] at hnr
      obtain ⟨d1, d2, d3, d4⟩ := hall_reg k hk
      have hmain : alookup k (mainCells stats q) = some (.num 0) := by
        rw [alookup_mainCells_regular stats q k hk]
        unfold partCells
        rw [if_neg hnr, alookup_nanFillCells _ _ hk]
        rfl
      rw [hcells]
      exact alookup_final_cells stats q k bio _ d1 d2 d3 d4 hmain
    · intro hnpo k hk
      rw [hqp] at hnpo
      obtain ⟨d1, d2, d3, d4⟩ := hall_po k hk
      have hmain : alookup k (mainCells stats q) = some (.num 0) := by
        rw [alookup_mainCells_playoffs stats q k hk (hpo_nr k hk)]
        unfold partCells
        rw [if_neg hnpo, alookup_nanFillCells _ _ hk]
        rfl
      rw [hcells]
      exact alookup_final_cells stats q k bio _ d1 d2 d3 d4 hmain
    · intro hnc k hk
      rw [hqp] at hnc
      obtain ⟨d1, d2, d3, d4⟩ := hall_car k hk
      have hmain : alookup k (mainCells stats q) = some (.num 0) := by
        rw [alookup_mainCells_career stats q k hk (hcar_nr k hk) (hcar_npo k hk)]
        unfold partCells
        rw [if_neg hnc, alookup_nanFillCells _ _ hk]
        rfl
      rw [hcells]
      exact alookup_final_cells stats q k bio _ d1 d2 d3 d4 hmain

theorem c1_witness :
    (regularRows wRowsTwo ≠ [] ∧ playoffRows wRowsTwo ≠ [] ∧
      (([onePR] : List PlayerRow).map mkPRName).Nodup) ∧
    (∃ F, (processData wRowsTwo [onePR]).2 = .ok F ∧
      (∀ q, (q ∈ groupKeys (regularRows wRowsTwo) ∨ q ∈ groupKeys (playoffRows wRowsTwo) ∨
             q ∈ groupKeys (nonPreRows wRowsTwo)) →
        (F.rows.map (·.player)).count q = 1) ∧
      (∀ row ∈ F.rows,
        (row.player ∉ groupKeys (regularRows wRowsTwo) →
          ∀ k ∈ statColsP "Regular", alookup k row.cells = some (.num 0)) ∧
        (row.player ∉ groupKeys (playoffRows wRowsTwo) →
          ∀ k ∈ statColsP "Playoffs", alookup k row.cells = some (.num 0)) ∧
        (row.player ∉ groupKeys (nonPreRows wRowsTwo) →
          ∀ k ∈ statColsP "Career", alookup k row.cells = some (.num 0)))) :=
  ⟨⟨by decide, by decide, by decide⟩,
    c1_unique_players_amended wRowsTwo [onePR] (by decide) (by decide) (by decide)⟩

/-- C3 counterexample: the claim's bound "every shooting-percentage field
is in [0, 100]" fails on raw data with more makes than attempts — a row
with 3 field goals made out of 1 attempted yields `Career_FG%` = 300 in
the served output. -/
theorem c3_counterexample :
    alookup "Career_FG%" ((getPlayerStatsOp initState 0 0 (.ok badRows []) "A B").1.getD [])
      = some (.num 300) ∧ ¬ ((300:ℚ) ≤ 100) := by
  exact ⟨by decide, by norm_num⟩

/-- C3 (amended): for well-formed box scores (each row has
`0 ≤ makes ≤ attempts` for every shot type), every field served by
`get_player_stats` is finite (never NaN or ±infinity), every numeric field
is a multiple of one tenth (rounded to one decimal place, with non-finite
values replaced by zero), and every shooting-percentage field lies in
[0, 100] and is exactly 0 when the corresponding attempts total is zero. -/
theorem c3_sanitized_output (stats : List GameRow) (players : List PlayerRow)
    (t1 t2 : ℚ) (name : String) (out : List (String × PVal))
    (st2 : FetcherState) (b : Bool)
    (hv : validRows stats)
    (h : getPlayerStatsOp initState t1 t2 (.ok stats players) name = (some out, st2, b)) :
    (∀ kv ∈ out, isFiniteV kv.2 = true) ∧
    (∀ kv ∈ out, (∃ s, kv.2 = PVal.str s) ∨ ∃ z : ℤ, kv.2 = PVal.num ((z:ℚ)/10)) ∧
    (∃ q, alookup "Player" out = some (.str q) ∧
      ∀ pre ∈ (["Regular", "Playoffs", "Career"] : List String),
        (∃ x : ℚ, alookup (pre ++ "_FG%") out = some (.num x) ∧ 0 ≤ x ∧ x ≤ 100 ∧
          (sumQ (rowsOf (subsetRowsFor pre stats) q) (fun r => r.fieldGoalsAttempted) = 0 →
            x = 0)) ∧
        (∃ x : ℚ, alookup (pre ++ "_3P%") out = some (.num x) ∧ 0 ≤ x ∧ x ≤ 100 ∧
          (sumQ (rowsOf (subsetRowsFor pre stats) q) (fun r => r.threePointersAttempted) = 0 →
            x = 0)) ∧
        (∃ x : ℚ, alookup (pre ++ "_FT%") out = some (.num x) ∧ 0 ≤ x ∧ x ≤ 100 ∧
          (sumQ (rowsOf (subsetRowsFor pre stats) q) (fun r => r.freeThrowsAttempted) = 0 →
            x = 0))) := by
  cases hres : (processData stats players).2 with
  | error err =>
    exfalso
    have hpd : processData stats players =
        (dedupSort (stats.map mkPlayerName), Except.error err) := by
      have h0 : processData stats players =
          (dedupSort (stats.map mkPlayerName), (processData stats players).2) := rfl
      rw [hres] at h0
      exact h0
    have hcall : getPlayerStatsOp initState t1 t2 (.ok stats players) name = (none,
        { initState with playerNames := some (dedupSort (stats.map mkPlayerName)) }, true) := by
      simp [getPlayerStatsOp, fetchDataM, staleCheck, hpd, initState]
    rw [h] at hcall
    simp at hcall
  | ok F =>
    have hpd : processData stats players =
        (dedupSort (stats.map mkPlayerName), Except.ok F) := by
      have h0 : processData stats players =
          (dedupSort (stats.map mkPlayerName), (processData stats players).2) := rfl
      rw [hres] at h0
      exact h0
    have hcall : getPlayerStatsOp initState t1 t2 (.ok stats players) name =
        (lookupStats F name,
         ⟨some F, some t2, some (dedupSort (stats.map mkPlayerName))⟩, true) := by
      simp [getPlayerStatsOp, fetchDataM, staleCheck, hpd, initState]
    rw [h, Prod.mk.injEq, Prod.mk.injEq] at hcall
    obtain ⟨hout, -, -⟩ := hcall
    rcases hfind : F.rows.find? (fun r => lowerStr r.player == lowerStr name) with _ | row
    · rw [lookupStats, hfind] at hout
      simp at hout
    · rw [lookupStats, hfind] at hout
      have hout2 : out = ("Player", PVal.str row.player) ::
          row.cells.map (fun kv => (kv.1, sanitizeVal kv.2)) := by
        simpa using hout
      have hrowmem : row ∈ F.rows := List.mem_of_find?_eq_some hfind
      obtain ⟨q, hqk, hqp, hbio⟩ := mem_processData_rows stats players F row hres hrowmem
      subst hqp
      have hcells : ∃ bio, row.cells = renameCells (mainCells stats row.player ++ bio) := by
        rcases hbio with h1 | ⟨pr, _, _, h1⟩
        · exact ⟨_, h1⟩
        · exact ⟨_, h1⟩
      obtain ⟨bio, hcells⟩ := hcells
      refine ⟨?_, ?_, ?_⟩
      · intro kv hkv
        rw [hout2] at hkv
        rcases List.mem_cons.mp hkv with hkv | hkv
        · rw [hkv]
          rfl
        · rw [List.mem_map] at hkv
          obtain ⟨kv0, -, hkv0⟩ := hkv
          rw [← hkv0]
          exact sanitizeVal_finite kv0.2
      · intro kv hkv
        rw [hout2] at hkv
        rcases List.mem_cons.mp hkv with hkv | hkv
        · rw [hkv]
          exact Or.inl ⟨row.player, rfl⟩
        · rw [List.mem_map] at hkv
          obtain ⟨kv0, -, hkv0⟩ := hkv
          rw [← hkv0]
          exact sanitizeVal_shape kv0.2
      · refine ⟨row.player, by rw [hout2]; rfl, ?_⟩
        intro pre hpre
        have hvFG : ∀ (sub : List GameRow), (∀ r, r ∈ rowsOf sub row.player → r ∈ stats) →
            0 ≤ sumQ (rowsOf sub row.player) (fun r => r.fieldGoalsMade) ∧
            sumQ (rowsOf sub row.player) (fun r => r.fieldGoalsMade) ≤
              sumQ (rowsOf sub row.player) (fun r => r.fieldGoalsAttempted) := by
          intro sub hsub
          exact ⟨sumQ_nonneg _ _ (fun r hr => (hv r (hsub r hr)).1.1),
            sumQ_le_sumQ _ _ _ (fun r hr => (hv r (hsub r hr)).1.2)⟩
        have hv3P : ∀ (sub : List GameRow), (∀ r, r ∈ rowsOf sub row.player → r ∈ stats) →
            0 ≤ sumQ (rowsOf sub row.player) (fun r => r.threePointersMade) ∧
            sumQ (rowsOf sub row.player) (fun r => r.threePointersMade) ≤
              sumQ (rowsOf sub row.player) (fun r => r.threePointersAttempted) := by
          intro sub hsub
          exact ⟨sumQ_nonneg _ _ (fun r hr => (hv r (hsub r hr)).2.1.1),
            sumQ_le_sumQ _ _ _ (fun r hr => (hv r (hsub r hr)).2.1.2)⟩
        have hvFT : ∀ (sub : List GameRow), (∀ r, r ∈ rowsOf sub row.player → r ∈ stats) →
            0 ≤ sumQ (rowsOf sub row.player) (fun r => r.freeThrowsMade) ∧
            sumQ (rowsOf sub row.player) (fun r => r.freeThrowsMade) ≤
              sumQ (rowsOf sub row.player) (fun r => r.freeThrowsAttempted) := by
          intro sub hsub
          exact ⟨sumQ_nonneg _ _ (fun r hr => (hv r (hsub r hr)).2.2.1),
            sumQ_le_sumQ _ _ _ (fun r hr => (hv r (hsub r hr)).2.2.2)⟩
        simp only [List.mem_cons, List.not_mem_nil, or_false] at hpre
        rw [hout2, hcells]
        rcases hpre with hpre | hpre | hpre <;> subst hpre
        · obtain ⟨hfg0, hfgle⟩ := hvFG (regularRows stats) (mem_stats_of_regular stats row.player)
          obtain ⟨h3p0, h3ple⟩ := hv3P (regularRows stats) (mem_stats_of_regular stats row.player)
          obtain ⟨hft0, hftle⟩ := hvFT (regularRows stats) (mem_stats_of_regular stats row.player)
          exact ⟨pct_final stats row.player bio (regularRows stats) "Regular" "Regular_FG%"
              (fun r => r.fieldGoalsMade) (fun r => r.fieldGoalsAttempted)
              (by decide) (by decide) (by decide) (by decide) (by decide) (by decide)
              (alookup_mainCells_regular stats row.player _ (by decide)) (fun _ => rfl)
              hfg0 hfgle,
            pct_final stats row.player bio (regularRows stats) "Regular" "Regular_3P%"
              (fun r => r.threePointersMade) (fun r => r.threePointersAttempted)
              (by decide) (by decide) (by decide) (by decide) (by decide) (by decide)
              (alookup_mainCells_regular stats row.player _ (by decide)) (fun _ => rfl)
              h3p0 h3ple,
            pct_final stats row.player bio (regularRows stats) "Regular" "Regular_FT%"
              (fun r => r.freeThrowsMade) (fun r => r.freeThrowsAttempted)
              (by decide) (by decide) (by decide) (by decide) (by decide) (by decide)
              (alookup_mainCells_regular stats row.player _ (by decide)) (fun _ => rfl)
              hft0 hftle⟩
        · obtain ⟨hfg0, hfgle⟩ := hvFG (playoffRows stats) (mem_stats_of_playoffs stats row.player)
          obtain ⟨h3p0, h3ple⟩ := hv3P (playoffRows stats) (mem_stats_of_playoffs stats row.player)
          obtain ⟨hft0, hftle⟩ := hvFT (playoffRows stats) (mem_stats_of_playoffs stats row.player)
          exact ⟨pct_final stats row.player bio (playoffRows stats) "Playoffs" "Playoffs_FG%"
              (fun r => r.fieldGoalsMade) (fun r => r.fieldGoalsAttempted)
              (by decide) (by decide) (by decide) (by decide) (by decide) (by decide)
              (alookup_mainCells_playoffs stats row.player _ (by decide) (by decide))
              (fun _ => rfl) hfg0 hfgle,
            pct_final stats row.player bio (playoffRows stats) "Playoffs" "Playoffs_3P%"
              (fun r => r.threePointersMade) (fun r => r.threePointersAttempted)
              (by decide) (by decide) (by decide) (by decide) (by decide) (by decide)
              (alookup_mainCells_playoffs stats row.player _ (by decide) (by decide))
              (fun _ => rfl) h3p0 h3ple,
            pct_final stats row.player bio (playoffRows stats) "Playoffs" "Playoffs_FT%"
              (fun r => r.freeThrowsMade) (fun r => r.freeThrowsAttempted)
              (by decide) (by decide) (by decide) (by decide) (by decide) (by decide)
              (alookup_mainCells_playoffs stats row.player _ (by decide) (by decide))
              (fun _ => rfl) hft0 hftle⟩
        · obtain ⟨hfg0, hfgle⟩ := hvFG (nonPreRows stats) (mem_stats_of_nonPre stats row.player)
          obtain ⟨h3p0, h3ple⟩ := hv3P (nonPreRows stats) (mem_stats_of_nonPre stats row.player)
          obtain ⟨hft0, hftle⟩ := hvFT (nonPreRows stats) (mem_stats_of_nonPre stats row.player)
          exact ⟨pct_final stats row.player bio (nonPreRows stats) "Career" "Career_FG%"
              (fun r => r.fieldGoalsMade) (fun r => r.fieldGoalsAttempted)
              (by decide) (by decide) (by decide) (by decide) (by decide) (by decide)
              (alookup_mainCells_career stats row.player _ (by decide) (by decide) (by decide))
              (fun _ => rfl) hfg0 hfgle,
            pct_final stats row.player bio (nonPreRows stats) "Career" "Career_3P%"
              (fun r => r.threePointersMade) (fun r => r.threePointersAttempted)
              (by decide) (by decide) (by decide) (by decide) (by decide) (by decide)
              (alookup_mainCells_career stats row.player _ (by decide) (by decide) (by decide))
              (fun _ => rfl) h3p0 h3ple,
            pct_final stats row.player bio (nonPreRows stats) "Career" "Career_FT%"
              (fun r => r.freeThrowsMade) (fun r => r.freeThrowsAttempted)
              (by decide) (by decide) (by decide) (by decide) (by decide) (by decide)
              (alookup_mainCells_career stats row.player _ (by decide) (by decide) (by decide))
              (fun _ => rfl) hft0 hftle⟩

theorem c3_witness :
    validRows wRowsTwo ∧
    getPlayerStatsOp initState 0 0 (.ok wRowsTwo []) "A B" =
      (some ((getPlayerStatsOp initState 0 0 (.ok wRowsTwo []) "A B").1.getD []),
       (getPlayerStatsOp initState 0 0 (.ok wRowsTwo []) "A B").2.1,
       (getPlayerStatsOp initState 0 0 (.ok wRowsTwo []) "A B").2.2) ∧
    ((∀ kv ∈ (getPlayerStatsOp initState 0 0 (.ok wRowsTwo []) "A B").1.getD [],
        isFiniteV kv.2 = true) ∧
     (∀ kv ∈ (getPlayerStatsOp initState 0 0 (.ok wRowsTwo []) "A B").1.getD [],
        (∃ s, kv.2 = PVal.str s) ∨ ∃ z : ℤ, kv.2 = PVal.num ((z:ℚ)/10)) ∧
     (∃ q, alookup "Player" ((getPlayerStatsOp initState 0 0 (.ok wRowsTwo []) "A B").1.getD [])
          = some (.str q) ∧
        ∀ pre ∈ (["Regular", "Playoffs", "Career"] : List String),
          (∃ x : ℚ, alookup (pre ++ "_FG%")
              ((getPlayerStatsOp initState 0 0 (.ok wRowsTwo []) "A B").1.getD [])
              = some (.num x) ∧ 0 ≤ x ∧ x ≤ 100 ∧
            (sumQ (rowsOf (subsetRowsFor pre wRowsTwo) q)
              (fun r => r.fieldGoalsAttempted) = 0 → x = 0)) ∧
          (∃ x : ℚ, alookup (pre ++ "_3P%")
              ((getPlayerStatsOp initState 0 0 (.ok wRowsTwo []) "A B").1.getD [])
              = some (.num x) ∧ 0 ≤ x ∧ x ≤ 100 ∧
            (sumQ (rowsOf (subsetRowsFor pre wRowsTwo) q)
              (fun r => r.threePointersAttempted) = 0 → x = 0)) ∧
          (∃ x : ℚ, alookup (pre ++ "_FT%")
              ((getPlayerStatsOp initState 0 0 (.ok wRowsTwo []) "A B").1.getD [])
              = some (.num x) ∧ 0 ≤ x ∧ x ≤ 100 ∧
            (sumQ (rowsOf (subsetRowsFor pre wRowsTwo) q)
              (fun r => r.freeThrowsAttempted) = 0 → x = 0)))) :=
  ⟨by decide, by decide,
    c3_sanitized_output wRowsTwo [] 0 0 "A B"
      ((getPlayerStatsOp initState 0 0 (.ok wRowsTwo []) "A B").1.getD [])
      (getPlayerStatsOp initState 0 0 (.ok wRowsTwo []) "A B").2.1
      (getPlayerStatsOp initState 0 0 (.ok wRowsTwo []) "A B").2.2
      (by decide) (by decide)⟩

/-- C5: the current-season window of a successful aggregation.  The
maximum game date is taken over the (preseason-filtered) rows; the season
start is October 1st of that date's year when its month is October or
later, and October 1st of the previous year otherwise; the `Current_`
cells of every output row are per-game averages over exactly the player's
rows whose game date is on or after that season start. -/
theorem c5_current_season_window (stats : List GameRow) (players : List PlayerRow)
    (F : Frame) (row : FRow)
    (h : (processData stats players).2 = .ok F) (hrow : row ∈ F.rows) :
    (∀ r ∈ nonPreRows stats, dateLeB r.gameDate (maxDate (nonPreRows stats)) = true) ∧
    (maxDate (nonPreRows stats) ∈ (nonPreRows stats).map (·.gameDate)) ∧
    (seasonStartD (maxDate (nonPreRows stats)) =
      if (maxDate (nonPreRows stats)).month < 10 then
        ⟨(maxDate (nonPreRows stats)).year - 1, 10, 1⟩
      else ⟨(maxDate (nonPreRows stats)).year, 10, 1⟩) ∧
    (currentRows stats = (nonPreRows stats).filter
      (fun r => dateLeB (seasonStartD (maxDate (nonPreRows stats))) r.gameDate)) ∧
    (∀ cur, cur = rowsOf (currentRows stats) row.player → cur ≠ [] →
      (alookup "Current_points" row.cells
          = some (qdiv (sumQ cur (·.points)) (cur.length : ℚ)) ∧
        alookup "Current_assists" row.cells
          = some (qdiv (sumQ cur (·.assists)) (cur.length : ℚ)) ∧
        alookup "Current_reboundsTotal" row.cells
          = some (qdiv (sumQ cur (·.reboundsTotal)) (cur.length : ℚ)) ∧
        alookup "Current_steals" row.cells
          = some (qdiv (sumQ cur (·.steals)) (cur.length : ℚ)) ∧
        alookup "Current_blocks" row.cells
          = some (qdiv (sumQ cur (·.blocks)) (cur.length : ℚ)) ∧
        alookup "Current_turnovers" row.cells
          = some (qdiv (sumQ cur (·.turnovers)) (cur.length : ℚ)) ∧
        alookup "Current_fieldGoalsMade" row.cells
          = some (qdiv (sumQ cur (·.fieldGoalsMade)) (cur.length : ℚ)) ∧
        alookup "Current_fieldGoalsAttempted" row.cells
          = some (qdiv (sumQ cur (·.fieldGoalsAttempted)) (cur.length : ℚ)) ∧
        alookup "Current_threePointersMade" row.cells
          = some (qdiv (sumQ cur (·.threePointersMade)) (cur.length : ℚ)) ∧
        alookup "Current_threePointersAttempted" row.cells
          = some (qdiv (sumQ cur (·.threePointersAttempted)) (cur.length : ℚ)) ∧
        alookup "Current_freeThrowsMade" row.cells
          = some (qdiv (sumQ cur (·.freeThrowsMade)) (cur.length : ℚ)) ∧
        alookup "Current_freeThrowsAttempted" row.cells
          = some (qdiv (sumQ cur (·.freeThrowsAttempted)) (cur.length : ℚ)) ∧
        alookup "Current_Games" row.cells = some (.num (cur.length : ℚ)))) := by
  obtain ⟨hreg, -⟩ := processData_ok_subsets stats players F h
  have hnp : nonPreRows stats ≠ [] := nonPre_ne_nil_of_regular stats hreg
  obtain ⟨hmax1, hmax2⟩ := maxDate_spec (nonPreRows stats) hnp
  refine ⟨hmax1, hmax2, rfl, rfl, ?_⟩
  intro cur hcur hne
  subst hcur
  obtain ⟨q, hqk, hqp, hbio⟩ := mem_processData_rows stats players F row h hrow
  subst hqp
  have hcells : ∃ bio, row.cells = renameCells (mainCells stats row.player ++ bio) := by
    rcases hbio with h1 | ⟨pr, -, -, h1⟩
    · exact ⟨_, h1⟩
    · exact ⟨_, h1⟩
  obtain ⟨bio, hcells⟩ := hcells
  have hq : row.player ∈ groupKeys (currentRows stats) := (mem_groupKeys_iff _ _).mpr hne
  rw [hcells]
  exact ⟨alookup_cur_final stats row.player "Current_points" bio _
      (by decide) (by decide) (by decide) (by decide) (by decide) (by decide) (by decide)
      hq rfl,
    alookup_cur_final stats row.player "Current_assists" bio _
      (by decide) (by decide) (by decide) (by decide) (by decide) (by decide) (by decide)
      hq rfl,
    alookup_cur_final stats row.player "Current_reboundsTotal" bio _
      (by decide) (by decide) (by decide) (by decide) (by decide) (by decide) (by decide)
      hq rfl,
    alookup_cur_final stats row.player "Current_steals" bio _
      (by decide) (by decide) (by decide) (by decide) (by decide) (by decide) (by decide)
      hq rfl,
    alookup_cur_final stats row.player "Current_blocks" bio _
      (by decide) (by decide) (by decide) (by decide) (by decide) (by decide) (by decide)
      hq rfl,
    alookup_cur_final stats row.player "Current_turnovers" bio _
      (by decide) (by decide) (by decide) (by decide) (by decide) (by decide) (by decide)
      hq rfl,
    alookup_cur_final stats row.player "Current_fieldGoalsMade" bio _
      (by decide) (by decide) (by decide) (by decide) (by decide) (by decide) (by decide)
      hq rfl,
    alookup_cur_final stats row.player "Current_fieldGoalsAttempted" bio _
      (by decide) (by decide) (by decide) (by decide) (by decide) (by decide) (by decide)
      hq rfl,
    alookup_cur_final stats row.player "Current_threePointersMade" bio _
      (by decide) (by decide) (by decide) (by decide) (by decide) (by decide) (by decide)
      hq rfl,
    alookup_cur_final stats row.player "Current_threePointersAttempted" bio _
      (by decide) (by decide) (by decide) (by decide) (by decide) (by decide) (by decide)
      hq rfl,
    alookup_cur_final stats row.player "Current_freeThrowsMade" bio _
      (by decide) (by decide) (by decide) (by decide) (by decide) (by decide) (by decide)
      hq rfl,
    alookup_cur_final stats row.player "Current_freeThrowsAttempted" bio _
      (by decide) (by decide) (by decide) (by decide) (by decide) (by decide) (by decide)
      hq rfl,
    alookup_cur_final stats row.player "Current_Games" bio _
      (by decide) (by decide) (by decide) (by decide) (by decide) (by decide) (by decide)
      hq rfl⟩

theorem c5_witness :
    (processData wRowsTwo [onePR]).2 =
      .ok ((processData wRowsTwo [onePR]).2.toOption.getD cexFrame) ∧
    ((processData wRowsTwo [onePR]).2.toOption.getD cexFrame).rows.getD 0 ⟨"", []⟩ ∈
      ((processData wRowsTwo [onePR]).2.toOption.getD cexFrame).rows ∧
    (∀ r ∈ nonPreRows wRowsTwo,
      dateLeB r.gameDate (maxDate (nonPreRows wRowsTwo)) = true) ∧
    (maxDate (nonPreRows wRowsTwo) ∈ (nonPreRows wRowsTwo).map (·.gameDate)) := by
  have hth := c5_current_season_window wRowsTwo [onePR]
    ((processData wRowsTwo [onePR]).2.toOption.getD cexFrame)
    (((processData wRowsTwo [onePR]).2.toOption.getD cexFrame).rows.getD 0 ⟨"", []⟩)
    (by decide) (by decide)
  exact ⟨by decide, by decide, hth.1, hth.2.1⟩

end LebronGPT
